import Mathlib

/-!
Shallow embedding of the gameplay simulation of `src/game.rs` (galaxy-cats):
player locomotion on a sphere, trail emission, collision/elimination,
score accounting and the round life-cycle state machine, as driven once per
fixed rollback frame by the `RollbackUpdate` schedule built in
`GamePlugin::build`.

Modelling conventions:
* `f32`/`f64` values are modelled as exact rationals (`ℚ`).  The float
  constants of the source (`0.2`, `0.18`, `1./3.`, ...) are taken at their
  ideal rational values.
* Library primitives of bevy/glam whose exact values are irrational
  (square root, sine/cosine, `Transform::look_at`'s matrix-to-quaternion
  conversion, `Quat::from_rotation_arc`, the constant `PI`) are supplied by
  an explicit oracle structure `MathOps`; every definition is parametric in
  the oracle, so all definitions stay computable and theorems quantify over
  the oracle (adding pointwise soundness hypotheses where a claim needs
  them).
* Bevy ECS plumbing: a `Query` over players iterates the live-player list
  in its stored order (spawn order = handle order); deferred `Commands`
  (entity despawns) are applied at the sync point after the system that
  queued them, which the embedding realises by filtering the player list at
  the end of `check_collisions`.
* Rust panics (`unwrap` on a missing score key, `panic!("Too many
  players!")`) are modelled by `Option`: a step that would panic returns
  `none`.
* `u32` arithmetic (`add_score`, score values) is `Nat` with explicit
  wrapping `% 2^32` (release-mode semantics); `saturating_sub` is `Nat`
  subtraction.
-/

namespace GalaxyCats

/-! ### Constants of `game.rs` (lines 11-31, 130) -/

def INPUT_JUMP_BIT : Nat := 0
def INPUT_LEFT_BIT : Nat := 1
def INPUT_RIGHT_BIT : Nat := 2
def INPUT_DASH_BIT : Nat := 3

def SPHERE_RADIUS : ℚ := 4
def SPHERE_RADIUS_SQ : ℚ := SPHERE_RADIUS * SPHERE_RADIUS
def MOVE_SPEED : ℚ := 5
def TURN_SPEED : ℚ := 3/4
def GRAVITY : ℚ := -75
def JUMP_VELOCITY : ℚ := 16
def FUEL_USAGE : ℚ := 100
def FUEL_REGEN : ℚ := 1/3
def DASH_SPEED_MULTIPLIER : ℚ := 2
def DASH_LENGTH : ℚ := 7/10
def DASH_COOLDOWN : ℚ := 4
def PLAYER_RADIUS : ℚ := 18/100
def TRAIL_RADIUS : ℚ := 2/10
def TRAIL_SPAWN_DIST : ℚ := TRAIL_RADIUS / 2
/-- Trail must exist for this many seconds before it kills people. -/
def MIN_TRAIL_LIFE : ℚ := 7/100
/-- Grounded tolerance `+ 0.02` used in `move_player`. -/
def GROUND_EPS : ℚ := 2/100
/-- Intermission duration of the repeating `RoundEndTimer` (0.75 s). -/
def ROUND_END_SECS : ℚ := 3/4
/-- Modulus of `u32` arithmetic. -/
def U32M : Nat := 4294967296

/-! ### Vectors and quaternions over ℚ (glam `Vec3` / `Quat`) -/

structure QVec3 where
  x : ℚ
  y : ℚ
  z : ℚ
deriving DecidableEq, Repr

namespace QVec3

def zero : QVec3 := ⟨0, 0, 0⟩

instance : Add QVec3 := ⟨fun a b => ⟨a.x + b.x, a.y + b.y, a.z + b.z⟩⟩
instance : Sub QVec3 := ⟨fun a b => ⟨a.x - b.x, a.y - b.y, a.z - b.z⟩⟩
instance : Neg QVec3 := ⟨fun a => ⟨-a.x, -a.y, -a.z⟩⟩
instance : SMul ℚ QVec3 := ⟨fun c a => ⟨c * a.x, c * a.y, c * a.z⟩⟩

/-- Scalar division `v / c` as used by `(a + b) / 2.0`. -/
def sdiv (a : QVec3) (c : ℚ) : QVec3 := ⟨a.x / c, a.y / c, a.z / c⟩

def dot (a b : QVec3) : ℚ := a.x * b.x + a.y * b.y + a.z * b.z

def cross (a b : QVec3) : QVec3 :=
  ⟨a.y * b.z - a.z * b.y, a.z * b.x - a.x * b.z, a.x * b.y - a.y * b.x⟩

/-- glam `Vec3::length_squared`. -/
def normSq (a : QVec3) : ℚ := dot a a

def xAxis : QVec3 := ⟨1, 0, 0⟩
def yAxis : QVec3 := ⟨0, 1, 0⟩
def negZ : QVec3 := ⟨0, 0, -1⟩

end QVec3

structure QQuat where
  x : ℚ
  y : ℚ
  z : ℚ
  w : ℚ
deriving DecidableEq, Repr

namespace QQuat

def id3 : QQuat := ⟨0, 0, 0, 1⟩

/-- Hamilton product (glam `Quat::mul`). -/
def mul (a b : QQuat) : QQuat :=
  ⟨a.w * b.x + a.x * b.w + a.y * b.z - a.z * b.y,
   a.w * b.y - a.x * b.z + a.y * b.w + a.z * b.x,
   a.w * b.z + a.x * b.y - a.y * b.x + a.z * b.w,
   a.w * b.w - a.x * b.x - a.y * b.y - a.z * b.z⟩

/-- Rotation of a vector by a quaternion
(`q * v`, glam formula via two cross products). -/
def rotate (q : QQuat) (v : QVec3) : QVec3 :=
  let u : QVec3 := ⟨q.x, q.y, q.z⟩
  let t : QVec3 := (2 : ℚ) • QVec3.cross u v
  v + q.w • t + QVec3.cross u t

end QQuat

/-- Oracle for bevy/glam library primitives whose exact real values are
irrational.  Each field is a deterministic total function; theorems add
pointwise hypotheses (for instance `sqrt 0 = 0`, or exactness of `sqrt` at
one value) where a claim depends on them. -/
structure MathOps where
  /-- stands for `f32::sqrt` (used by `length`, `distance`, `normalize`). -/
  sqrt : ℚ → ℚ
  /-- stands for `f32::sin`. -/
  sin : ℚ → ℚ
  /-- stands for `f32::cos`. -/
  cos : ℚ → ℚ
  /-- stands for `std::f32::consts::PI`. -/
  pi : ℚ
  /-- stands for `Transform::look_at` (arguments: direction `target -
  translation`, up); yields the new rotation quaternion. -/
  lookTo : QVec3 → QVec3 → QQuat
  /-- stands for `Quat::from_rotation_arc`. -/
  fromRotationArc : QVec3 → QVec3 → QQuat

namespace MathOps

/-- glam `Vec3::length` = `sqrt (length_squared)`. -/
def len (ops : MathOps) (v : QVec3) : ℚ := ops.sqrt (QVec3.normSq v)

/-- glam `Vec3::distance`. -/
def dist (ops : MathOps) (a b : QVec3) : ℚ := ops.len (a - b)

/-- glam `Vec3::normalize` = `v / length v` (division by a zero length,
which in f32 would produce non-finite components, degenerates to the zero
vector in ℚ; the emission guard of `manage_trail` is what keeps this case
unreachable, see C9). -/
def normalize (ops : MathOps) (v : QVec3) : QVec3 :=
  (1 / ops.len v) • v

/-- glam `Quat::from_axis_angle` (axis assumed unit length):
`(axis * sin (angle/2), cos (angle/2))`. -/
def fromAxisAngle (ops : MathOps) (axis : QVec3) (angle : ℚ) : QQuat :=
  ⟨axis.x * ops.sin (angle / 2), axis.y * ops.sin (angle / 2),
   axis.z * ops.sin (angle / 2), ops.cos (angle / 2)⟩

/-- glam `Quat::from_rotation_x`. -/
def fromRotationX (ops : MathOps) (angle : ℚ) : QQuat :=
  ⟨ops.sin (angle / 2), 0, 0, ops.cos (angle / 2)⟩

/-- glam `Quat::from_rotation_y`. -/
def fromRotationY (ops : MathOps) (angle : ℚ) : QQuat :=
  ⟨0, ops.sin (angle / 2), 0, ops.cos (angle / 2)⟩

/-- glam `Quat::from_rotation_z`. -/
def fromRotationZ (ops : MathOps) (angle : ℚ) : QQuat :=
  ⟨0, 0, ops.sin (angle / 2), ops.cos (angle / 2)⟩

end MathOps

/-! ### Bevy `Timer` (mode `Once` or `Repeating`), as used by
`Player.dashing`, `Player.dash_cooldown` and `RoundEndTimer`. -/

structure TimerQ where
  duration : ℚ
  elapsed : ℚ
  repeating : Bool
  finishedFlag : Bool
  timesFinishedThisTick : Nat
deriving DecidableEq, Repr

namespace TimerQ

/-- `Timer::from_seconds(d, TimerMode::Once)`. -/
def once (d : ℚ) : TimerQ := ⟨d, 0, false, false, 0⟩

/-- `Timer::from_seconds(d, TimerMode::Repeating)`. -/
def rep (d : ℚ) : TimerQ := ⟨d, 0, true, false, 0⟩

/-- `Timer::is_finished`. -/
def isFinished (t : TimerQ) : Bool := t.finishedFlag

/-- `Timer::just_finished`. -/
def justFinished (t : TimerQ) : Bool := t.timesFinishedThisTick != 0

/-- `Timer::reset`. -/
def reset (t : TimerQ) : TimerQ :=
  { t with elapsed := 0, finishedFlag := false, timesFinishedThisTick := 0 }

/-- `Timer::finish`: marks the timer finished, advancing `elapsed` to the
full duration. -/
def finish (t : TimerQ) : TimerQ :=
  { t with elapsed := t.duration, finishedFlag := true }

/-- `Timer::tick(delta)`: a non-repeating timer that is already finished is
left untouched (only clearing the per-tick counter); otherwise elapsed time
is advanced, a non-repeating timer clamps at its duration, and a repeating
timer wraps, recording how many times it completed this tick. -/
def tick (t : TimerQ) (delta : ℚ) : TimerQ :=
  if !t.repeating && t.finishedFlag then
    { t with timesFinishedThisTick := 0 }
  else
    let e := t.elapsed + delta
    if t.duration ≤ e then
      if t.repeating then
        if t.duration = 0 then
          { t with elapsed := 0, finishedFlag := true,
                   timesFinishedThisTick := 1 }
        else
          { t with elapsed := e - t.duration * ((⌊e / t.duration⌋ : ℤ) : ℚ),
                   finishedFlag := true,
                   timesFinishedThisTick := (⌊e / t.duration⌋).toNat }
      else
        { t with elapsed := t.duration, finishedFlag := true,
                 timesFinishedThisTick := 1 }
    else
      { t with elapsed := e, finishedFlag := false,
               timesFinishedThisTick := 0 }

end TimerQ

/-! ### Simulation state -/

/-- `RollbackState` of `game.rs` (the `None` variant is named `Idle` here
to avoid clashing with `Option.none`). -/
inductive RollbackState where
  | Idle
  | InRound
  | RoundEnd
deriving DecidableEq, Repr

/-- Component `Player`. The `lastTrail` entity id is modelled as the
insertion index of the segment in the trail list. -/
structure Player where
  handle : Nat
  fuel : ℚ
  hovering : Bool
  dashing : TimerQ
  dashCooldown : TimerQ
  lastTrailPos : QVec3
  lastTrail : Option Nat
deriving DecidableEq, Repr

/-- Component `Transform` (translation and rotation; scale is never read or
written by the simulation and is omitted). -/
structure TransformQ where
  translation : QVec3
  rotation : QQuat
deriving DecidableEq, Repr

/-- One live player entity: its `Transform`, `Velocity` and `Player`
components. -/
structure PlayerEnt where
  transform : TransformQ
  vel : QVec3
  player : Player
deriving DecidableEq, Repr

/-- Component `TrailSegment` together with its `Transform`. -/
structure TrailSeg where
  transform : TransformQ
  createdAt : ℚ
deriving DecidableEq, Repr

/-- The authoritative rollback state: the rolled-back entities
(players in spawn order, trail segments in insertion order) and the
rolled-back resources (`DeathStack`, `Scores` as an association list,
`RoundEndTimer`, the `RollbackState` with its pending `NextState`, the
rollback-safe `Time` in seconds).  `numPlayers` is the session's constant
player count. -/
structure GameState where
  players : List PlayerEnt
  trails : List TrailSeg
  deathStack : List Nat
  scores : List (Nat × Nat)
  roundTimer : TimerQ
  rollbackState : RollbackState
  nextState : Option RollbackState
  elapsed : ℚ
  numPlayers : Nat
deriving DecidableEq, Repr

/-! ### `move_player` (game.rs lines 382-498) -/

/-- Intermediate values of one player's `move_player` body, exposed so that
theorems can speak about the position before and after the
vertical-velocity displacement. -/
structure MoveTrace where
  newPos : QVec3
  newUp : QVec3
  postDisp : QVec3
  result : PlayerEnt
deriving DecidableEq, Repr

/-- Body of the `move_player` loop for one player, following the source
line by line.  `inputs h` is the input bitmask of handle `h`
(`PlayerInputs` indexing). -/
def movePlayerTrace (ops : MathOps) (inputs : Nat → Nat) (dt : ℚ)
    (pe : PlayerEnt) : MoveTrace :=
  let mask := inputs pe.player.handle
  let left := Nat.testBit mask INPUT_LEFT_BIT
  let right := Nat.testBit mask INPUT_RIGHT_BIT
  let jump := Nat.testBit mask INPUT_JUMP_BIT
  let dash := Nat.testBit mask INPUT_DASH_BIT
  let isGrounded : Bool :=
    decide (QVec3.normSq pe.transform.translation ≤ SPHERE_RADIUS_SQ + GROUND_EPS)
  -- Start dashing if dash was pressed
  let dashCooldown := pe.player.dashCooldown.tick dt
  let startDash : Bool :=
    dash && pe.player.dashing.isFinished && dashCooldown.isFinished && isGrounded
  let dashing := if startDash then pe.player.dashing.reset else pe.player.dashing
  let dashCooldown := if startDash then dashCooldown.reset else dashCooldown
  let dashing := dashing.tick dt
  -- Jumping ends dash and immediately makes it available again
  let doJump : Bool := jump && isGrounded
  let vy := if doJump then JUMP_VELOCITY else pe.vel.y
  let dashing := if doJump then dashing.finish else dashing
  let dashCooldown := if doJump then dashCooldown.finish else dashCooldown
  let deltaGrav := GRAVITY * dt
  -- Would start to fall on this update, if jump is held, start hovering
  let hovering :=
    if jump && decide (0 ≤ vy) && decide (vy + deltaGrav < 0)
        && !isGrounded && !pe.player.hovering
    then true else pe.player.hovering
  -- Decrement fuel while hovering
  let fuel := if hovering && jump then pe.player.fuel - FUEL_USAGE * dt
              else pe.player.fuel
  -- Stop hover if jump is released or out of fuel
  let hovering := if hovering && (!jump || decide (fuel ≤ 0)) then false
                  else hovering
  -- Apply Gravity if in air and not hovering
  let vy := if !hovering && (!isGrounded || decide (vy ≠ 0)) then vy + deltaGrav
            else 0
  -- We turn around the local Y axis (the alien's "up")
  let rot := pe.transform.rotation
  let rot := if left then QQuat.mul rot (ops.fromRotationY (ops.pi * TURN_SPEED * dt))
             else rot
  let rot := if right then QQuat.mul rot (ops.fromRotationY (-(ops.pi * TURN_SPEED * dt)))
             else rot
  let currentPos := pe.transform.translation
  let forward := QQuat.rotate rot QVec3.negZ
  let axis := QQuat.rotate rot QVec3.xAxis
  let moveSpeed := if dashing.isFinished then MOVE_SPEED
                   else DASH_SPEED_MULTIPLIER * MOVE_SPEED
  let moveAmount := moveSpeed * dt
  let angle := moveAmount / SPHERE_RADIUS
  -- Rotate the position vector around the side-axis
  let rotationDelta := ops.fromAxisAngle axis (-angle)
  let newPos := QQuat.rotate rotationDelta currentPos
  let newUp := ops.normalize newPos
  -- Re-orient the player to stand upright on the new position
  let newForward := QQuat.rotate rotationDelta forward
  let rot2 := ops.lookTo ((newPos + newForward) - newPos) newUp
  -- Apply velocity along the normal (away from center)
  let postDisp := newPos + (vy * dt) • newUp
  -- Increment fuel while grounded
  let isGrounded2 : Bool :=
    decide (QVec3.normSq postDisp ≤ SPHERE_RADIUS_SQ + GROUND_EPS)
  let fuel := if isGrounded2 && decide (fuel ≤ 100) then fuel + FUEL_REGEN * dt
              else fuel
  -- Snap player to sphere radius if they're below
  let snap : Bool := decide (QVec3.normSq postDisp < SPHERE_RADIUS_SQ)
  let finalPos := if snap then SPHERE_RADIUS • newUp else postDisp
  let vy := if snap then 0 else vy
  { newPos := newPos, newUp := newUp, postDisp := postDisp,
    result :=
      { transform := { translation := finalPos, rotation := rot2 },
        vel := { pe.vel with y := vy },
        player := { pe.player with
                      fuel := fuel, hovering := hovering,
                      dashing := dashing, dashCooldown := dashCooldown } } }

/-- `move_player` for one player entity. -/
def movePlayer (ops : MathOps) (inputs : Nat → Nat) (dt : ℚ)
    (pe : PlayerEnt) : PlayerEnt :=
  (movePlayerTrace ops inputs dt pe).result

/-- System `move_player`: every live player is advanced independently. -/
def movePlayerSys (ops : MathOps) (inputs : Nat → Nat) (dt : ℚ)
    (st : GameState) : GameState :=
  { st with players := st.players.map (movePlayer ops inputs dt) }

/-! ### `manage_trail` (game.rs lines 500-548) -/

/-- Decision of `manage_trail` for one player: a segment is emitted exactly
when the distance travelled since the last emission strictly exceeds
`TRAIL_SPAWN_DIST`. -/
def trailShouldSpawn (ops : MathOps) (pe : PlayerEnt) : Bool :=
  decide (TRAIL_SPAWN_DIST < ops.dist pe.transform.translation pe.player.lastTrailPos)

/-- The segment emitted for one player: midpoint of the travelled chord
lifted by `TRAIL_RADIUS` along the player's up, oriented so that the
cylinder's Y axis points along the direction of travel, stamped with the
current simulation time. -/
def trailSegmentFor (ops : MathOps) (now : ℚ) (pe : PlayerEnt) : TrailSeg :=
  let midpoint := QVec3.sdiv (pe.transform.translation + pe.player.lastTrailPos) 2
                  + TRAIL_RADIUS • QQuat.rotate pe.transform.rotation QVec3.yAxis
  let direction := ops.normalize (pe.transform.translation - pe.player.lastTrailPos)
  let rotation := ops.fromRotationArc QVec3.yAxis direction
  { transform := { translation := midpoint, rotation := rotation },
    createdAt := now }

/-- Loop body of `manage_trail` for one player: `baseLen` is the number of
pre-existing trail entities (used for the fresh segment's identity), `acc`
carries the players visited so far and the segments they emitted. -/
def manageTrailStep (ops : MathOps) (now : ℚ) (baseLen : Nat)
    (acc : List PlayerEnt × List TrailSeg) (pe : PlayerEnt) :
    List PlayerEnt × List TrailSeg :=
  if trailShouldSpawn ops pe then
    (acc.1 ++ [{ pe with
                  player := { pe.player with
                                lastTrailPos := pe.transform.translation,
                                lastTrail := some (baseLen + acc.2.length) } }],
     acc.2 ++ [trailSegmentFor ops now pe])
  else (acc.1 ++ [pe], acc.2)

/-- System `manage_trail`: players are visited in stored order; each may
append one segment to the trail list and records the new segment's identity
(modelled as its insertion index) and its emission position. -/
def manageTrailSys (ops : MathOps) (st : GameState) : GameState :=
  let out := st.players.foldl (manageTrailStep ops st.elapsed st.trails.length) ([], [])
  { st with players := out.1, trails := st.trails ++ out.2 }

/-! ### `check_collisions` and `dist_to_segment` (game.rs lines 550-601) -/

/-- `dist_to_segment`: minimum distance from point `p` to the closed
segment `[a, b]` by clamped projection with endpoint fallback. -/
def distToSegment (ops : MathOps) (p a b : QVec3) : ℚ :=
  let v := b - a
  let w := p - a
  let c1 := QVec3.dot w v
  if c1 ≤ 0 then ops.dist p a
  else
    let c2 := QVec3.dot v v
    if c2 ≤ c1 then ops.dist p b
    else
      let b2 := c1 / c2
      let pb := a + b2 • v
      ops.dist p pb

/-- Inner-loop test of `check_collisions` for one (player, segment) pair:
segments younger than `MIN_TRAIL_LIFE` are skipped, otherwise the player
collides when its distance to the segment (endpoints at `±
TRAIL_SPAWN_DIST/2` along the segment's up axis) is strictly below
`TRAIL_RADIUS + PLAYER_RADIUS`. -/
def segmentHits (ops : MathOps) (now : ℚ) (pe : PlayerEnt) (tr : TrailSeg) : Bool :=
  if now - tr.createdAt < MIN_TRAIL_LIFE then false
  else
    let p := pe.transform.translation
    let b := tr.transform.translation
    let trailDir := QQuat.rotate tr.transform.rotation QVec3.yAxis
    let halfHeight := TRAIL_SPAWN_DIST / 2
    let start := b - halfHeight • trailDir
    let stop := b + halfHeight • trailDir
    decide (distToSegment ops p start stop < TRAIL_RADIUS + PLAYER_RADIUS)

/-- System `check_collisions`: for every live player (outer loop, stored
order) and every segment (inner loop, stored order), a hit pushes the
player's handle onto the death stack — once per hitting segment, since the
loop does not stop at the first hit — and queues the entity's despawn; the
deferred despawns are applied afterwards, removing every player with at
least one hit. -/
def checkCollisionsSys (ops : MathOps) (st : GameState) : GameState :=
  let pushes := st.players.flatMap fun pe =>
    (st.trails.filter (segmentHits ops st.elapsed pe)).map fun _ => pe.player.handle
  { st with
      deathStack := st.deathStack ++ pushes,
      players := st.players.filter fun pe => !st.trails.any (segmentHits ops st.elapsed pe) }

/-! ### Scores and `check_round_end` (game.rs lines 603-634) -/

/-- Lookup in the `Scores` map (association list keyed by handle,
`HashMap::get`). -/
def lookupScore : List (Nat × Nat) → Nat → Option Nat
  | [], _ => none
  | p :: t, h => if p.1 = h then some p.2 else lookupScore t h

/-- `*scores.get_mut(&h).unwrap() += a` with `u32` wrapping addition;
`none` models the `unwrap` panic on a missing key. -/
def scoresAdd (sc : List (Nat × Nat)) (h : Nat) (a : Nat) :
    Option (List (Nat × Nat)) :=
  if (lookupScore sc h).isSome then
    some (sc.map fun p => if p.1 = h then (p.1, (p.2 + a) % U32M) else p)
  else none

/-- The `for handle in death_stack.iter().rev()` loop of `check_round_end`:
`l` is the already-reversed stack, `a` the running `add_score`, decremented
with `saturating_sub` after each award. -/
def awardLoop (sc : List (Nat × Nat)) (a : Nat) :
    List Nat → Option (List (Nat × Nat))
  | [] => some sc
  | h :: t => (scoresAdd sc h a).bind fun sc' => awardLoop sc' (a - 1) t

/-- The result of `players.single()`: the unique live player's handle when
the query has exactly one result, `none` otherwise. -/
def soleSurvivor (st : GameState) : Option Nat :=
  match st.players with
  | [pe] => some pe.player.handle
  | _ => none

/-- System `check_round_end`: when at most one player remains, `add_score`
starts at `num_players as u32 - 1` (wrapping), the sole survivor — if the
query has exactly one result — is awarded and `add_score` decremented
(wrapping), then the death stack is consumed newest-first with decreasing
(saturating) awards, and the round-end transition is requested. -/
def checkRoundEndSys (st : GameState) : Option GameState :=
  if st.players.length ≤ 1 then
    let addScore := (st.numPlayers % U32M + (U32M - 1)) % U32M
    let afterSurvivor : Option (List (Nat × Nat) × Nat) :=
      match soleSurvivor st with
      | some h =>
          (scoresAdd st.scores h addScore).map
            fun sc => (sc, (addScore + (U32M - 1)) % U32M)
      | none => some (st.scores, addScore)
    afterSurvivor.bind fun x =>
      (awardLoop x.1 x.2 st.deathStack.reverse).map fun sc' =>
        { st with scores := sc', nextState := some RollbackState.RoundEnd }
  else some st

/-! ### `round_end_timeout` (game.rs lines 650-660) -/

/-- System `round_end_timeout`: tick the repeating intermission timer; on
completion request the transition back to `InRound`. -/
def roundEndTimeoutSys (dt : ℚ) (st : GameState) : GameState :=
  let t := st.roundTimer.tick dt
  { st with
      roundTimer := t,
      nextState := if t.justFinished then some RollbackState.InRound
                   else st.nextState }

/-! ### `spawn_players` (game.rs lines 294-372) and `setup_env`
(lines 223-291) -/

/-- Spawn position per handle (the six poles); `none` models the
`panic!("Too many players!")`. -/
def spawnPos : Nat → Option QVec3
  | 0 => some ⟨0, SPHERE_RADIUS, 0⟩
  | 1 => some ⟨0, -SPHERE_RADIUS, 0⟩
  | 3 => some ⟨-SPHERE_RADIUS, 0, 0⟩
  | 2 => some ⟨SPHERE_RADIUS, 0, 0⟩
  | 4 => some ⟨0, 0, SPHERE_RADIUS⟩
  | 5 => some ⟨0, 0, -SPHERE_RADIUS⟩
  | _ => none

/-- Spawn rotation per handle. -/
def spawnRot (ops : MathOps) : Nat → Option QQuat
  | 0 => some (ops.fromRotationY (-(ops.pi / 2)))
  | 1 => some (ops.fromRotationY (ops.pi / 2))
  | 2 => some (ops.fromRotationX (-(ops.pi / 2)))
  | 3 => some (ops.fromRotationX (ops.pi / 2))
  | 4 => some (ops.fromRotationZ (-(ops.pi / 2)))
  | 5 => some (ops.fromRotationZ (ops.pi / 2))
  | _ => none

/-- One freshly spawned player: both dash timers created and immediately
force-finished, full fuel, not hovering, last-trail position at the spawn
point. -/
def freshPlayer (ops : MathOps) (handle : Nat) : Option PlayerEnt :=
  (spawnPos handle).bind fun pos =>
    (spawnRot ops handle).map fun rot =>
      { transform := { translation := pos, rotation := rot },
        vel := QVec3.zero,
        player :=
          { handle := handle, fuel := 100, hovering := false,
            dashing := (TimerQ.once DASH_LENGTH).finish,
            dashCooldown := (TimerQ.once DASH_COOLDOWN).finish,
            lastTrailPos := pos, lastTrail := none } }

/-- The `for handle in 0..num_players` spawn loop. -/
def buildPlayers (ops : MathOps) : List Nat → Option (List PlayerEnt)
  | [] => some []
  | h :: t =>
      (freshPlayer ops h).bind fun pe =>
        (buildPlayers ops t).map fun rest => pe :: rest

/-- System `spawn_players` (runs on entering `InRound`): despawn every
leftover player and trail entity, clear the death stack, then spawn
`num_players` fresh players.  The score ledger is not touched. -/
def spawnPlayers (ops : MathOps) (st : GameState) : Option GameState :=
  (buildPlayers ops (List.range st.numPlayers)).map fun ps =>
    { st with players := ps, trails := [], deathStack := [] }

/-- `setup_env`: reset and initialise the scores with one zero entry per
handle, and request the initial transition to `InRound`.  (The scoreboard
UI, lighting and sphere mesh it also spawns are presentation only.) -/
def setupEnv (n : Nat) : GameState :=
  { players := [], trails := [], deathStack := [],
    scores := (List.range n).map fun h => (h, 0),
    roundTimer := TimerQ.rep ROUND_END_SECS,
    rollbackState := RollbackState.Idle,
    nextState := some RollbackState.InRound,
    elapsed := 0, numPlayers := n }

/-! ### One `RollbackUpdate` frame -/

/-- `bevy_roll_safe`'s `apply_state_transition`, running before the
state-gated systems of the frame: a pending next state (if it differs from
the current one) becomes current, and entering `InRound` runs
`spawn_players` (`update_scoreboard` is presentation only). -/
def applyTransition (ops : MathOps) (st : GameState) : Option GameState :=
  match st.nextState with
  | none => some st
  | some ns =>
      if ns = st.rollbackState then some { st with nextState := none }
      else
        let st' := { st with rollbackState := ns, nextState := none }
        match ns with
        | RollbackState.InRound => spawnPlayers ops st'
        | _ => some st'

/-- One frame of the `RollbackUpdate` schedule: the rollback-safe clock
advances by the fixed step `dt`, the pending state transition is applied,
then either the `InRound` chain `move_player → manage_trail →
(move_camera, presentation only) → check_collisions → check_round_end`
or the `RoundEnd` system `round_end_timeout` runs. -/
def advance (ops : MathOps) (inputs : Nat → Nat) (dt : ℚ)
    (st : GameState) : Option GameState :=
  let st := { st with elapsed := st.elapsed + dt }
  (applyTransition ops st).bind fun st =>
    match st.rollbackState with
    | RollbackState.Idle => some st
    | RollbackState.InRound =>
        checkRoundEndSys
          (checkCollisionsSys ops
            (manageTrailSys ops
              (movePlayerSys ops inputs dt st)))
    | RollbackState.RoundEnd => some (roundEndTimeoutSys dt st)

/-- Repeated frames, one input map per frame. -/
def advanceMany (ops : MathOps) (dt : ℚ) :
    GameState → List (Nat → Nat) → Option GameState
  | st, [] => some st
  | st, i :: rest => (advance ops i dt st).bind fun st' => advanceMany ops dt st' rest

/-! ### Spec-side definitions (used to state the claims against the code) -/

/-- Awards paired with the handles of a death stack read newest-first:
the head gets `a`, the next `a - 1` (saturating), and so on. -/
def awards (a : Nat) : List Nat → List (Nat × Nat)
  | [] => []
  | h :: t => (h, a) :: awards (a - 1) t

/-- Points for handle `h` by claim C2's literal rule: the sole survivor
(if any) receives `n - 1`; the eliminated players, newest first, receive
points starting at `n - 2` and decrementing (floored at zero). -/
def claimC2award (n : Nat) (survivor : Option Nat) (stack : List Nat)
    (h : Nat) : Nat :=
  (if survivor = some h then n - 1 else 0) +
  ((awards (n - 2) stack.reverse).filterMap
      fun p => if p.1 = h then some p.2 else none).sum

/-- Points for handle `h` as `check_round_end` actually computes them: the
starting award for the eliminated players is `n - 2` when a sole survivor
was credited, but `n - 1` when nobody survived (the decrement is inside the
survivor branch). -/
def roundEndPoints (n : Nat) (survivor : Option Nat) (stack : List Nat)
    (h : Nat) : Nat :=
  (if survivor = some h then n - 1 else 0) +
  ((awards (if survivor.isSome then n - 2 else n - 1) stack.reverse).filterMap
      fun p => if p.1 = h then some p.2 else none).sum

/-- Handle-range/score-key invariant of claim C10: every live player's
handle and every handle on the death stack is below `num_players`, and the
score map has an entry for every handle below `num_players`. -/
def ScoresInv (st : GameState) : Prop :=
  (∀ pe ∈ st.players, pe.player.handle < st.numPlayers) ∧
  (∀ h ∈ st.deathStack, h < st.numPlayers) ∧
  (∀ h, h < st.numPlayers → (lookupScore st.scores h).isSome)

instance (st : GameState) : Decidable (ScoresInv st) := by
  unfold ScoresInv
  infer_instance

/-! ### Helper lemmas on vectors -/

theorem QVec3.smul_x (c : ℚ) (v : QVec3) : (c • v).x = c * v.x := rfl

theorem QVec3.smul_y (c : ℚ) (v : QVec3) : (c • v).y = c * v.y := rfl

theorem QVec3.smul_z (c : ℚ) (v : QVec3) : (c • v).z = c * v.z := rfl

theorem QVec3.add_def (a b : QVec3) : a + b = ⟨a.x + b.x, a.y + b.y, a.z + b.z⟩ := rfl

theorem QVec3.sub_def (a b : QVec3) : a - b = ⟨a.x - b.x, a.y - b.y, a.z - b.z⟩ := rfl

theorem QVec3.smul_def (c : ℚ) (v : QVec3) : c • v = ⟨c * v.x, c * v.y, c * v.z⟩ := rfl

theorem QVec3.normSq_smul (c : ℚ) (v : QVec3) :
    QVec3.normSq (c • v) = c * c * QVec3.normSq v := by
  simp only [QVec3.normSq, QVec3.dot, QVec3.smul_x, QVec3.smul_y, QVec3.smul_z]
  ring

theorem QVec3.smul_smul (a b : ℚ) (v : QVec3) : a • (b • v) = (a * b) • v := by
  show QVec3.mk _ _ _ = QVec3.mk _ _ _
  simp only [QVec3.smul_x, QVec3.smul_y, QVec3.smul_z]
  ring_nf

theorem QVec3.normSq_zero_iff (v : QVec3) : QVec3.normSq v = 0 ↔ v = QVec3.zero := by
  obtain ⟨a, b, c⟩ := v
  simp only [QVec3.normSq, QVec3.dot, QVec3.zero, QVec3.mk.injEq]
  constructor
  · intro h
    refine ⟨?_, ?_, ?_⟩ <;> nlinarith [mul_self_nonneg a, mul_self_nonneg b, mul_self_nonneg c]
  · rintro ⟨rfl, rfl, rfl⟩; ring

/-! ### Witness fixtures: concrete oracles and states used by the
witnesses and counterexamples below.  `baseOps` is one arbitrary concrete
oracle; the variants pin `sqrt` to the value convenient for the state at
hand. -/

def baseOps : MathOps :=
  { sqrt := fun _ => 0, sin := fun _ => 0, cos := fun _ => 1, pi := 355/113,
    lookTo := fun _ _ => QQuat.id3, fromRotationArc := fun _ _ => QQuat.id3 }

def opsSqrt6 : MathOps := { baseOps with sqrt := fun _ => 6 }
def opsSqrt4 : MathOps := { baseOps with sqrt := fun _ => 4 }
def opsSqrtId : MathOps := { baseOps with sqrt := fun x => x }

/-- A player entity with identity rotation and force-finished dash timers
(the state they are spawned in). -/
def mkPlayer (h : Nat) (pos lastPos vel : QVec3) (fuel : ℚ) (hov : Bool) :
    PlayerEnt :=
  { transform := { translation := pos, rotation := QQuat.id3 },
    vel := vel,
    player := { handle := h, fuel := fuel, hovering := hov,
                dashing := (TimerQ.once DASH_LENGTH).finish,
                dashCooldown := (TimerQ.once DASH_COOLDOWN).finish,
                lastTrailPos := lastPos, lastTrail := none } }

/-! ### Claim C1 -/

/-- C1: one `RollbackUpdate` frame (`advance`, the chain `move_player →
manage_trail → check_collisions → check_round_end` plus the state-machine
plumbing) is a pure function of (prior state, inputs, fixed step): the
embedding consumes no wall clock and iterates entities in their stored,
creation-deterministic order, so two runs from equal states with equal
inputs agree; and stepping through a frame list equals snapshotting after
any prefix, restoring, and replaying the suffix. -/
theorem advance_pure_and_replay :
    (∀ (ops : MathOps) (i₁ i₂ : Nat → Nat) (dt : ℚ) (s₁ s₂ : GameState),
        i₁ = i₂ → s₁ = s₂ → advance ops i₁ dt s₁ = advance ops i₂ dt s₂) ∧
    (∀ (ops : MathOps) (dt : ℚ) (s : GameState) (l₁ l₂ : List (Nat → Nat)),
        advanceMany ops dt s (l₁ ++ l₂) =
          (advanceMany ops dt s l₁).bind fun s' => advanceMany ops dt s' l₂) := by
  constructor
  · intro ops i₁ i₂ dt s₁ s₂ hi hs
    rw [hi, hs]
  · intro ops dt s l₁ l₂
    induction l₁ generalizing s with
    | nil => simp [advanceMany]
    | cons i rest ih =>
        simp only [List.cons_append, advanceMany]
        cases advance ops i dt s with
        | none => simp
        | some s' => simpa using ih s'

theorem advance_pure_and_replay_witness :
    advance baseOps (fun _ => 0) (1/60) (setupEnv 2) =
      advance baseOps (fun _ => 0) (1/60) (setupEnv 2) ∧
    advanceMany baseOps (1/60) (setupEnv 2) ([fun _ => 0] ++ [fun _ => 0]) =
      (advanceMany baseOps (1/60) (setupEnv 2) [fun _ => 0]).bind
        fun s' => advanceMany baseOps (1/60) s' [fun _ => 0] :=
  ⟨advance_pure_and_replay.1 baseOps (fun _ => 0) (fun _ => 0) (1/60)
      (setupEnv 2) (setupEnv 2) rfl rfl,
   advance_pure_and_replay.2 baseOps (1/60) (setupEnv 2) [fun _ => 0] [fun _ => 0]⟩

/-! ### Claim C9 -/

/-- C9: `manage_trail` only normalizes non-zero vectors: whenever its spawn
condition fires (travelled distance strictly above the positive threshold
`TRAIL_SPAWN_DIST`), the direction vector handed to `normalize` is
non-zero.  Stated for any sqrt oracle faithful at zero (as f32 sqrt is);
in the rational model non-finite values do not exist, and this guard is
exactly what keeps the f32 `normalize` away from the zero-length case the
spec warns about. -/
theorem trail_normalize_guard (ops : MathOps) (pe : PlayerEnt)
    (h0 : ops.sqrt 0 = 0) (hspawn : trailShouldSpawn ops pe = true) :
    pe.transform.translation - pe.player.lastTrailPos ≠ QVec3.zero ∧
    QVec3.normSq (pe.transform.translation - pe.player.lastTrailPos) ≠ 0 := by
  have hd : TRAIL_SPAWN_DIST <
      ops.dist pe.transform.translation pe.player.lastTrailPos := by
    simpa [trailShouldSpawn] using hspawn
  have hne : QVec3.normSq (pe.transform.translation - pe.player.lastTrailPos) ≠ 0 := by
    intro h
    rw [MathOps.dist, MathOps.len, h, h0] at hd
    norm_num [TRAIL_SPAWN_DIST, TRAIL_RADIUS] at hd
  refine ⟨fun h => hne ?_, hne⟩
  rw [h]
  simp [QVec3.normSq, QVec3.dot, QVec3.zero]

theorem trail_normalize_guard_witness :
    (mkPlayer 0 ⟨1, 4, 0⟩ ⟨0, 4, 0⟩ QVec3.zero 100 false).transform.translation -
        (mkPlayer 0 ⟨1, 4, 0⟩ ⟨0, 4, 0⟩ QVec3.zero 100 false).player.lastTrailPos ≠
      QVec3.zero ∧
    QVec3.normSq ((mkPlayer 0 ⟨1, 4, 0⟩ ⟨0, 4, 0⟩ QVec3.zero 100 false).transform.translation -
        (mkPlayer 0 ⟨1, 4, 0⟩ ⟨0, 4, 0⟩ QVec3.zero 100 false).player.lastTrailPos) ≠ 0 :=
  trail_normalize_guard opsSqrtId
    (mkPlayer 0 ⟨1, 4, 0⟩ ⟨0, 4, 0⟩ QVec3.zero 100 false) (by rfl)
    (by norm_num [trailShouldSpawn, MathOps.dist, MathOps.len, QVec3.sub_def,
          QVec3.normSq, QVec3.dot, mkPlayer, opsSqrtId, baseOps,
          TRAIL_SPAWN_DIST, TRAIL_RADIUS])

/-! ### Claim C3 -/

/-- C3 is false as stated: from a legal state (fuel 1/2 ∈ [0, 100],
hovering with jump held), one step of `move_player` at dt = 1/60 leaves
fuel = 1/2 − 100·(1/60) = −7/6 < 0 — the drain has no floor at zero (the
hover flag is cleared only after the subtraction). -/
theorem fuel_bounds_claim_false :
    (0 ≤ (mkPlayer 0 ⟨0, 6, 0⟩ ⟨0, 6, 0⟩ ⟨0, 5, 0⟩ (1/2) true).player.fuel ∧
      (mkPlayer 0 ⟨0, 6, 0⟩ ⟨0, 6, 0⟩ ⟨0, 5, 0⟩ (1/2) true).player.fuel ≤ 100) ∧
    (movePlayer opsSqrt6 (fun _ => 1) (1/60)
        (mkPlayer 0 ⟨0, 6, 0⟩ ⟨0, 6, 0⟩ ⟨0, 5, 0⟩ (1/2) true)).player.fuel < 0 := by
  norm_num [movePlayer, movePlayerTrace, mkPlayer, opsSqrt6, baseOps,
    TimerQ.tick, TimerQ.reset, TimerQ.finish, TimerQ.isFinished, TimerQ.once,
    MathOps.normalize, MathOps.len, MathOps.fromAxisAngle, MathOps.fromRotationY,
    QQuat.rotate, QQuat.mul, QQuat.id3, QVec3.add_def, QVec3.sub_def, QVec3.smul_def,
    QVec3.normSq, QVec3.dot, QVec3.cross, QVec3.xAxis, QVec3.yAxis, QVec3.negZ,
    SPHERE_RADIUS, SPHERE_RADIUS_SQ, GROUND_EPS, GRAVITY, JUMP_VELOCITY,
    FUEL_USAGE, FUEL_REGEN, MOVE_SPEED, TURN_SPEED, DASH_SPEED_MULTIPLIER,
    DASH_LENGTH, DASH_COOLDOWN, INPUT_JUMP_BIT, INPUT_LEFT_BIT, INPUT_RIGHT_BIT,
    INPUT_DASH_BIT, Nat.testBit]

set_option maxHeartbeats 2000000 in
/-- C3 amended: per step, starting from fuel in [0, 100], the fuel after
`move_player` lies in [−FUEL_USAGE·dt, 100 + FUEL_REGEN·dt]: the hover
drain subtracts at most FUEL_USAGE·dt with no floor, and regeneration is
gated by fuel ≤ 100 before the addition rather than clamped, so it can
overshoot the maximum by one increment. -/
theorem fuel_bounds_amended (ops : MathOps) (inputs : Nat → Nat) (dt : ℚ)
    (pe : PlayerEnt) (hdt : 0 ≤ dt) (h0 : 0 ≤ pe.player.fuel)
    (h100 : pe.player.fuel ≤ 100) :
    -(FUEL_USAGE * dt) ≤ (movePlayer ops inputs dt pe).player.fuel ∧
    (movePlayer ops inputs dt pe).player.fuel ≤ 100 + FUEL_REGEN * dt := by
  have husage : (0:ℚ) ≤ FUEL_USAGE * dt := by
    unfold FUEL_USAGE; linarith
  have hregen : (0:ℚ) ≤ FUEL_REGEN * dt := by
    unfold FUEL_REGEN; linarith
  unfold movePlayer movePlayerTrace
  dsimp only
  split_ifs <;> constructor <;> linarith

theorem fuel_bounds_amended_witness :
    -(FUEL_USAGE * (1/60)) ≤
      (movePlayer opsSqrt4 (fun _ => 0) (1/60)
        (mkPlayer 0 ⟨0, 4, 0⟩ ⟨0, 4, 0⟩ QVec3.zero 50 false)).player.fuel ∧
    (movePlayer opsSqrt4 (fun _ => 0) (1/60)
        (mkPlayer 0 ⟨0, 4, 0⟩ ⟨0, 4, 0⟩ QVec3.zero 50 false)).player.fuel ≤
      100 + FUEL_REGEN * (1/60) :=
  fuel_bounds_amended opsSqrt4 (fun _ => 0) (1/60)
    (mkPlayer 0 ⟨0, 4, 0⟩ ⟨0, 4, 0⟩ QVec3.zero 50 false)
    (by norm_num) (by norm_num [mkPlayer]) (by norm_num [mkPlayer])

/-! ### Claim C8 -/

/-- C8 is false as stated: with dash pressed, both dash timers finished and
the player grounded (and jump not pressed), the claim requires both timers
to be reset with no further ticking, so the dash-active timer would end the
step with elapsed = 0; but `move_player` ticks the dash-active timer after
the reset (line 405 runs after lines 402-403), leaving elapsed = dt = 1/60. -/
theorem dash_tick_order_claim_false :
    Nat.testBit 8 INPUT_DASH_BIT = true ∧
    Nat.testBit 8 INPUT_JUMP_BIT = false ∧
    (mkPlayer 0 ⟨0, 4, 0⟩ ⟨0, 4, 0⟩ QVec3.zero 100 false).player.dashing.isFinished = true ∧
    (mkPlayer 0 ⟨0, 4, 0⟩ ⟨0, 4, 0⟩ QVec3.zero 100 false).player.dashCooldown.isFinished = true ∧
    QVec3.normSq (mkPlayer 0 ⟨0, 4, 0⟩ ⟨0, 4, 0⟩ QVec3.zero 100 false).transform.translation ≤
      SPHERE_RADIUS_SQ + GROUND_EPS ∧
    (movePlayer opsSqrt4 (fun _ => 8) (1/60)
        (mkPlayer 0 ⟨0, 4, 0⟩ ⟨0, 4, 0⟩ QVec3.zero 100 false)).player.dashing.elapsed = 1/60 ∧
    (1 : ℚ)/60 ≠ 0 := by
  have hd : Nat.testBit 8 INPUT_DASH_BIT = true := by decide
  have hj : Nat.testBit 8 INPUT_JUMP_BIT = false := by decide
  have hl : Nat.testBit 8 INPUT_LEFT_BIT = false := by decide
  have hr : Nat.testBit 8 INPUT_RIGHT_BIT = false := by decide
  norm_num [hd, hj, hl, hr, movePlayer, movePlayerTrace, mkPlayer, opsSqrt4, baseOps,
    TimerQ.tick, TimerQ.reset, TimerQ.finish, TimerQ.isFinished, TimerQ.once,
    MathOps.normalize, MathOps.len, MathOps.fromAxisAngle, MathOps.fromRotationY,
    QQuat.rotate, QQuat.mul, QQuat.id3, QVec3.add_def, QVec3.sub_def, QVec3.smul_def,
    QVec3.normSq, QVec3.dot, QVec3.cross, QVec3.xAxis, QVec3.yAxis, QVec3.negZ,
    SPHERE_RADIUS, SPHERE_RADIUS_SQ, GROUND_EPS, GRAVITY, JUMP_VELOCITY,
    FUEL_USAGE, FUEL_REGEN, MOVE_SPEED, TURN_SPEED, DASH_SPEED_MULTIPLIER,
    DASH_LENGTH, DASH_COOLDOWN]

/-- C8 amended: the cooldown timer is advanced first; then, if dash is
pressed while the dash timer was already finished before any advance this
step, the just-advanced cooldown timer is finished, and the player is
grounded, both timers are reset — and the dash-active timer is then
advanced by the step duration after the reset (the cooldown timer is not
advanced again).  Stated away from the jump branch, which would force-finish
both timers afterwards. -/
theorem dash_tick_order_amended (ops : MathOps) (inputs : Nat → Nat) (dt : ℚ)
    (pe : PlayerEnt)
    (hdash : Nat.testBit (inputs pe.player.handle) INPUT_DASH_BIT = true)
    (hjump : Nat.testBit (inputs pe.player.handle) INPUT_JUMP_BIT = false)
    (hfin : pe.player.dashing.isFinished = true)
    (hcool : (pe.player.dashCooldown.tick dt).isFinished = true)
    (hground : QVec3.normSq pe.transform.translation ≤ SPHERE_RADIUS_SQ + GROUND_EPS) :
    (movePlayer ops inputs dt pe).player.dashing =
      (pe.player.dashing.reset).tick dt ∧
    (movePlayer ops inputs dt pe).player.dashCooldown =
      (pe.player.dashCooldown.tick dt).reset := by
  unfold movePlayer movePlayerTrace
  simp only [hdash, hjump, hfin, hcool, decide_eq_true hground, Bool.true_and,
    Bool.and_true, Bool.false_and, Bool.and_false, if_true, if_false,
    Bool.and_self, ite_true, ite_false]
  exact ⟨rfl, rfl⟩

theorem dash_tick_order_amended_witness :
    (movePlayer opsSqrt4 (fun _ => 8) (1/60)
        (mkPlayer 0 ⟨0, 4, 0⟩ ⟨0, 4, 0⟩ QVec3.zero 100 false)).player.dashing =
      ((mkPlayer 0 ⟨0, 4, 0⟩ ⟨0, 4, 0⟩ QVec3.zero 100 false).player.dashing.reset).tick (1/60) ∧
    (movePlayer opsSqrt4 (fun _ => 8) (1/60)
        (mkPlayer 0 ⟨0, 4, 0⟩ ⟨0, 4, 0⟩ QVec3.zero 100 false)).player.dashCooldown =
      ((mkPlayer 0 ⟨0, 4, 0⟩ ⟨0, 4, 0⟩ QVec3.zero 100 false).player.dashCooldown.tick (1/60)).reset :=
  dash_tick_order_amended opsSqrt4 (fun _ => 8) (1/60)
    (mkPlayer 0 ⟨0, 4, 0⟩ ⟨0, 4, 0⟩ QVec3.zero 100 false)
    (by decide) (by decide)
    (by norm_num [mkPlayer, TimerQ.isFinished, TimerQ.finish, TimerQ.once])
    (by norm_num [mkPlayer, TimerQ.isFinished, TimerQ.finish, TimerQ.once, TimerQ.tick])
    (by norm_num [mkPlayer, QVec3.normSq, QVec3.dot, SPHERE_RADIUS_SQ, SPHERE_RADIUS, GROUND_EPS])

/-! ### Claim C7 -/

theorem QVec3.eq_iff (a b : QVec3) :
    a = b ↔ a.x = b.x ∧ a.y = b.y ∧ a.z = b.z := by
  obtain ⟨ax, ay, az⟩ := a
  obtain ⟨bx, b_y, bz⟩ := b
  simp [QVec3.mk.injEq]

/-- Core algebra of the spherical snap: if `q` is an exact non-zero square
root of `‖v‖²`, then `SPHERE_RADIUS • ((1/q) • v)` has squared norm exactly
`SPHERE_RADIUS_SQ`, and any displacement of `v` along `(1/q) • v` is a
scalar multiple of the snapped vector. -/
theorem snap_core (q c : ℚ) (v : QVec3) (hq2 : q * q = QVec3.normSq v)
    (hq0 : q ≠ 0) :
    QVec3.normSq (SPHERE_RADIUS • ((1/q) • v)) = SPHERE_RADIUS_SQ ∧
    ∃ d : ℚ, v + c • ((1/q) • v) = d • (SPHERE_RADIUS • ((1/q) • v)) := by
  constructor
  · rw [QVec3.normSq_smul, QVec3.normSq_smul, ← hq2]
    field_simp [SPHERE_RADIUS, SPHERE_RADIUS_SQ]
  · refine ⟨(q + c) / SPHERE_RADIUS, ?_⟩
    rw [QVec3.eq_iff]
    simp only [QVec3.add_def, QVec3.smul_def, SPHERE_RADIUS]
    refine ⟨?_, ?_, ?_⟩ <;> field_simp <;> ring

set_option maxHeartbeats 2000000 in
/-- C7: when the position reached after the vertical-velocity displacement
has squared norm strictly below `SPHERE_RADIUS_SQ`, `move_player` ends the
step with translation `SPHERE_RADIUS • new_up` and vertical velocity 0;
moreover, whenever the sqrt oracle is exact and non-zero at `‖new_pos‖²`
(as for the ideal real sqrt), the final position has squared norm exactly
`SPHERE_RADIUS_SQ` — i.e. lies exactly at distance `SPHERE_RADIUS = 4` from
the center — and the pre-snap position is a scalar multiple of it (the snap
acts along the position's own direction). -/
theorem sphere_snap (ops : MathOps) (inputs : Nat → Nat) (dt : ℚ)
    (pe : PlayerEnt)
    (hsnap : QVec3.normSq (movePlayerTrace ops inputs dt pe).postDisp <
      SPHERE_RADIUS_SQ) :
    (movePlayerTrace ops inputs dt pe).result.transform.translation =
      SPHERE_RADIUS • (movePlayerTrace ops inputs dt pe).newUp ∧
    (movePlayerTrace ops inputs dt pe).result.vel.y = 0 ∧
    (ops.sqrt (QVec3.normSq (movePlayerTrace ops inputs dt pe).newPos) *
          ops.sqrt (QVec3.normSq (movePlayerTrace ops inputs dt pe).newPos) =
        QVec3.normSq (movePlayerTrace ops inputs dt pe).newPos →
      ops.sqrt (QVec3.normSq (movePlayerTrace ops inputs dt pe).newPos) ≠ 0 →
      QVec3.normSq (movePlayerTrace ops inputs dt pe).result.transform.translation =
          SPHERE_RADIUS_SQ ∧
      ∃ c : ℚ, (movePlayerTrace ops inputs dt pe).postDisp =
          c • (movePlayerTrace ops inputs dt pe).result.transform.translation) := by
  unfold movePlayerTrace at hsnap ⊢
  dsimp only at hsnap ⊢
  simp only [decide_eq_true hsnap, if_true]
  refine ⟨trivial, trivial, fun hq2 hq0 => ?_⟩
  simp only [MathOps.normalize, MathOps.len] at *
  exact snap_core _ _ _ hq2 hq0

theorem sphere_snap_witness :
    (movePlayerTrace { baseOps with sqrt := fun _ => 39/10 } (fun _ => 0) (1/60)
        (mkPlayer 0 ⟨0, 39/10, 0⟩ ⟨0, 39/10, 0⟩ QVec3.zero 50 false)).result.transform.translation =
      SPHERE_RADIUS • (movePlayerTrace { baseOps with sqrt := fun _ => 39/10 } (fun _ => 0) (1/60)
        (mkPlayer 0 ⟨0, 39/10, 0⟩ ⟨0, 39/10, 0⟩ QVec3.zero 50 false)).newUp ∧
    (movePlayerTrace { baseOps with sqrt := fun _ => 39/10 } (fun _ => 0) (1/60)
        (mkPlayer 0 ⟨0, 39/10, 0⟩ ⟨0, 39/10, 0⟩ QVec3.zero 50 false)).result.vel.y = 0 ∧
    (MathOps.sqrt { baseOps with sqrt := fun _ => 39/10 }
          (QVec3.normSq (movePlayerTrace { baseOps with sqrt := fun _ => 39/10 } (fun _ => 0) (1/60)
            (mkPlayer 0 ⟨0, 39/10, 0⟩ ⟨0, 39/10, 0⟩ QVec3.zero 50 false)).newPos) *
        MathOps.sqrt { baseOps with sqrt := fun _ => 39/10 }
          (QVec3.normSq (movePlayerTrace { baseOps with sqrt := fun _ => 39/10 } (fun _ => 0) (1/60)
            (mkPlayer 0 ⟨0, 39/10, 0⟩ ⟨0, 39/10, 0⟩ QVec3.zero 50 false)).newPos) =
      QVec3.normSq (movePlayerTrace { baseOps with sqrt := fun _ => 39/10 } (fun _ => 0) (1/60)
        (mkPlayer 0 ⟨0, 39/10, 0⟩ ⟨0, 39/10, 0⟩ QVec3.zero 50 false)).newPos →
    MathOps.sqrt { baseOps with sqrt := fun _ => 39/10 }
        (QVec3.normSq (movePlayerTrace { baseOps with sqrt := fun _ => 39/10 } (fun _ => 0) (1/60)
          (mkPlayer 0 ⟨0, 39/10, 0⟩ ⟨0, 39/10, 0⟩ QVec3.zero 50 false)).newPos) ≠ 0 →
    QVec3.normSq (movePlayerTrace { baseOps with sqrt := fun _ => 39/10 } (fun _ => 0) (1/60)
        (mkPlayer 0 ⟨0, 39/10, 0⟩ ⟨0, 39/10, 0⟩ QVec3.zero 50 false)).result.transform.translation =
      SPHERE_RADIUS_SQ ∧
    ∃ c : ℚ, (movePlayerTrace { baseOps with sqrt := fun _ => 39/10 } (fun _ => 0) (1/60)
        (mkPlayer 0 ⟨0, 39/10, 0⟩ ⟨0, 39/10, 0⟩ QVec3.zero 50 false)).postDisp =
      c • (movePlayerTrace { baseOps with sqrt := fun _ => 39/10 } (fun _ => 0) (1/60)
        (mkPlayer 0 ⟨0, 39/10, 0⟩ ⟨0, 39/10, 0⟩ QVec3.zero 50 false)).result.transform.translation) :=
  sphere_snap { baseOps with sqrt := fun _ => 39/10 } (fun _ => 0) (1/60)
    (mkPlayer 0 ⟨0, 39/10, 0⟩ ⟨0, 39/10, 0⟩ QVec3.zero 50 false)
    (by norm_num [movePlayerTrace, mkPlayer, baseOps, QVec3.zero,
      TimerQ.tick, TimerQ.reset, TimerQ.finish, TimerQ.isFinished, TimerQ.once,
      MathOps.normalize, MathOps.len, MathOps.fromAxisAngle, MathOps.fromRotationY,
      QQuat.rotate, QQuat.mul, QQuat.id3, QVec3.add_def, QVec3.sub_def, QVec3.smul_def,
      QVec3.normSq, QVec3.dot, QVec3.cross, QVec3.xAxis, QVec3.yAxis, QVec3.negZ,
      SPHERE_RADIUS, SPHERE_RADIUS_SQ, GROUND_EPS, GRAVITY, JUMP_VELOCITY,
      FUEL_USAGE, FUEL_REGEN, MOVE_SPEED, TURN_SPEED, DASH_SPEED_MULTIPLIER,
      DASH_LENGTH, DASH_COOLDOWN, INPUT_JUMP_BIT, INPUT_LEFT_BIT, INPUT_RIGHT_BIT,
      INPUT_DASH_BIT, Nat.testBit])

/-! ### Claim C5 -/

/-- Unfolding of the inner-loop test: a segment registers a hit exactly
when its age is at least the grace window and the point-to-segment distance
is strictly below the combined radii. -/
theorem segmentHits_iff (ops : MathOps) (now : ℚ) (pe : PlayerEnt)
    (tr : TrailSeg) :
    segmentHits ops now pe tr = true ↔
      (MIN_TRAIL_LIFE ≤ now - tr.createdAt ∧
        distToSegment ops pe.transform.translation
            (tr.transform.translation -
              (TRAIL_SPAWN_DIST / 2) • QQuat.rotate tr.transform.rotation QVec3.yAxis)
            (tr.transform.translation +
              (TRAIL_SPAWN_DIST / 2) • QQuat.rotate tr.transform.rotation QVec3.yAxis) <
          TRAIL_RADIUS + PLAYER_RADIUS) := by
  unfold segmentHits
  split_ifs with hage
  · simp only [Bool.false_eq_true, false_iff, not_and]
    intro h1
    exact absurd h1 (not_le.mpr hage)
  · simp only [decide_eq_true_eq]
    exact ⟨fun hd => ⟨not_lt.mp hage, hd⟩, fun h => h.2⟩

/-- C5: in `check_collisions`, a live player is eliminated — removed from
the live set, with its handle pushed onto the death stack — if and only if
some trail segment is at least `MIN_TRAIL_LIFE` old and its
point-to-closed-segment distance (clamped projection with endpoint
fallback, endpoints at half the spawn distance along the segment's up axis)
to the player is strictly below `TRAIL_RADIUS + PLAYER_RADIUS`.  In
particular a segment younger than the grace window never eliminates any
player, its own emitter included. -/
theorem elimination_iff_segment_hit (ops : MathOps) (st : GameState)
    (pe : PlayerEnt) (hmem : pe ∈ st.players) :
    (pe ∉ (checkCollisionsSys ops st).players ↔
      ∃ tr ∈ st.trails,
        MIN_TRAIL_LIFE ≤ st.elapsed - tr.createdAt ∧
        distToSegment ops pe.transform.translation
            (tr.transform.translation -
              (TRAIL_SPAWN_DIST / 2) • QQuat.rotate tr.transform.rotation QVec3.yAxis)
            (tr.transform.translation +
              (TRAIL_SPAWN_DIST / 2) • QQuat.rotate tr.transform.rotation QVec3.yAxis) <
          TRAIL_RADIUS + PLAYER_RADIUS) ∧
    (pe ∉ (checkCollisionsSys ops st).players →
      pe.player.handle ∈ (checkCollisionsSys ops st).deathStack) := by
  have hany : pe ∉ (checkCollisionsSys ops st).players ↔
      st.trails.any (segmentHits ops st.elapsed pe) = true := by
    unfold checkCollisionsSys
    dsimp only
    rw [List.mem_filter]
    constructor
    · intro hnot
      by_contra hno
      exact hnot ⟨hmem, by simp [hno]⟩
    · intro hyes ⟨_, hkeep⟩
      simp [hyes] at hkeep
  constructor
  · rw [hany, List.any_eq_true]
    constructor
    · rintro ⟨tr, htr, hhit⟩
      exact ⟨tr, htr, (segmentHits_iff ops st.elapsed pe tr).mp hhit⟩
    · rintro ⟨tr, htr, hcond⟩
      exact ⟨tr, htr, (segmentHits_iff ops st.elapsed pe tr).mpr hcond⟩
  · intro hdead
    rw [hany, List.any_eq_true] at hdead
    obtain ⟨tr, htr, hhit⟩ := hdead
    unfold checkCollisionsSys
    dsimp only
    rw [List.mem_append]
    right
    rw [List.mem_flatMap]
    refine ⟨pe, hmem, ?_⟩
    rw [List.mem_map]
    exact ⟨tr, List.mem_filter.mpr ⟨htr, hhit⟩, rfl⟩

/-- Concrete state for the collision claims: one player sitting exactly on
two coincident, sufficiently old trail segments. -/
def collSeg : TrailSeg :=
  { transform := { translation := ⟨0, 4, 0⟩, rotation := QQuat.id3 },
    createdAt := 0 }

def collState : GameState :=
  { players := [mkPlayer 0 ⟨0, 4, 0⟩ ⟨0, 4, 0⟩ QVec3.zero 100 false],
    trails := [collSeg, collSeg], deathStack := [], scores := [(0, 0), (1, 0)],
    roundTimer := TimerQ.rep ROUND_END_SECS,
    rollbackState := RollbackState.InRound,
    nextState := none, elapsed := 1, numPlayers := 2 }

theorem elimination_iff_segment_hit_witness :
    ((mkPlayer 0 ⟨0, 4, 0⟩ ⟨0, 4, 0⟩ QVec3.zero 100 false) ∉
        (checkCollisionsSys baseOps collState).players ↔
      ∃ tr ∈ collState.trails,
        MIN_TRAIL_LIFE ≤ collState.elapsed - tr.createdAt ∧
        distToSegment baseOps
            (mkPlayer 0 ⟨0, 4, 0⟩ ⟨0, 4, 0⟩ QVec3.zero 100 false).transform.translation
            (tr.transform.translation -
              (TRAIL_SPAWN_DIST / 2) • QQuat.rotate tr.transform.rotation QVec3.yAxis)
            (tr.transform.translation +
              (TRAIL_SPAWN_DIST / 2) • QQuat.rotate tr.transform.rotation QVec3.yAxis) <
          TRAIL_RADIUS + PLAYER_RADIUS) ∧
    ((mkPlayer 0 ⟨0, 4, 0⟩ ⟨0, 4, 0⟩ QVec3.zero 100 false) ∉
        (checkCollisionsSys baseOps collState).players →
      (mkPlayer 0 ⟨0, 4, 0⟩ ⟨0, 4, 0⟩ QVec3.zero 100 false).player.handle ∈
        (checkCollisionsSys baseOps collState).deathStack) :=
  elimination_iff_segment_hit baseOps collState
    (mkPlayer 0 ⟨0, 4, 0⟩ ⟨0, 4, 0⟩ QVec3.zero 100 false)
    (by simp [collState])

/-! ### Claim C4 -/

/-- C4 is false as stated: the player of `collState` overlaps two
sufficiently old segments in the same step, and `check_collisions` pushes
its handle once per hitting segment (the inner loop does not stop at the
first hit), so the death stack receives the handle twice and its length
exceeds `num_players - 1 = 1`. -/
theorem death_stack_once_claim_false :
    (checkCollisionsSys baseOps collState).deathStack = [0, 0] ∧
    ¬ ((checkCollisionsSys baseOps collState).deathStack.count 0 ≤ 1) ∧
    collState.numPlayers - 1 < (checkCollisionsSys baseOps collState).deathStack.length := by
  have hstack : (checkCollisionsSys baseOps collState).deathStack = [0, 0] := by
    norm_num [checkCollisionsSys, collState, collSeg, mkPlayer, segmentHits,
      distToSegment, MathOps.dist, MathOps.len, baseOps, QQuat.rotate, QQuat.id3,
      QVec3.add_def, QVec3.sub_def, QVec3.smul_def, QVec3.normSq, QVec3.dot,
      QVec3.cross, QVec3.yAxis, QVec3.zero, MIN_TRAIL_LIFE, TRAIL_SPAWN_DIST,
      TRAIL_RADIUS, PLAYER_RADIUS]
  refine ⟨hstack, ?_, ?_⟩ <;> rw [hstack] <;> decide

set_option maxHeartbeats 1000000 in
/-- C4 amended: within one `check_collisions` step a player's handle is
pushed once per segment that hits it, so a player overlapping several aged
segments is pushed several times and the stack can exceed
`num_players − 1`; what does hold is that every entry of the stack is
either old or the handle of a player eliminated this step, and — when live
players carry distinct handles — a player that survives the step (in
particular the last survivor) has its count on the stack unchanged. -/
theorem death_stack_amended (ops : MathOps) (st : GameState)
    (hnd : (st.players.map fun pe => pe.player.handle).Nodup) :
    (∀ pe ∈ (checkCollisionsSys ops st).players,
        ((checkCollisionsSys ops st).deathStack.count pe.player.handle) =
          st.deathStack.count pe.player.handle) ∧
    (∀ h, h ∈ (checkCollisionsSys ops st).deathStack →
        h ∈ st.deathStack ∨
          ∃ pe ∈ st.players, pe.player.handle = h ∧
            pe ∉ (checkCollisionsSys ops st).players) := by
  constructor
  · intro pe hpe
    have hpe' := hpe
    unfold checkCollisionsSys at hpe' ⊢
    dsimp only at hpe' ⊢
    rw [List.mem_filter] at hpe'
    obtain ⟨hmem, hkeep⟩ := hpe'
    rw [List.count_append]
    have hzero : (st.players.flatMap fun q =>
        (st.trails.filter (segmentHits ops st.elapsed q)).map
          fun _ => q.player.handle).count pe.player.handle = 0 := by
      rw [List.count_eq_zero]
      intro habs
      rw [List.mem_flatMap] at habs
      obtain ⟨q, hq, hq2⟩ := habs
      rw [List.mem_map] at hq2
      obtain ⟨tr, htr, hh⟩ := hq2
      have hqe : q = pe :=
        List.inj_on_of_nodup_map hnd hq hmem hh
      subst hqe
      rw [List.mem_filter] at htr
      simp only [Bool.not_eq_true', List.any_eq_false] at hkeep
      exact absurd htr.2 (by simp [hkeep tr htr.1])
    omega
  · intro h hmem
    unfold checkCollisionsSys at hmem ⊢
    dsimp only at hmem ⊢
    rw [List.mem_append] at hmem
    rcases hmem with hold | hnew
    · exact Or.inl hold
    · right
      rw [List.mem_flatMap] at hnew
      obtain ⟨q, hq, hq2⟩ := hnew
      rw [List.mem_map] at hq2
      obtain ⟨tr, htr, hh⟩ := hq2
      rw [List.mem_filter] at htr
      refine ⟨q, hq, hh, ?_⟩
      rw [List.mem_filter]
      rintro ⟨-, hkeep⟩
      simp only [Bool.not_eq_true', List.any_eq_false] at hkeep
      exact absurd htr.2 (by simp [hkeep tr htr.1])

theorem death_stack_amended_witness :
    (∀ pe ∈ (checkCollisionsSys baseOps collState).players,
        ((checkCollisionsSys baseOps collState).deathStack.count pe.player.handle) =
          collState.deathStack.count pe.player.handle) ∧
    (∀ h, h ∈ (checkCollisionsSys baseOps collState).deathStack →
        h ∈ collState.deathStack ∨
          ∃ pe ∈ collState.players, pe.player.handle = h ∧
            pe ∉ (checkCollisionsSys baseOps collState).players) :=
  death_stack_amended baseOps collState (by simp [collState, mkPlayer])

/-! ### Claim C2 -/

theorem lookupScore_mem (sc : List (Nat × Nat)) (h v : Nat)
    (hl : lookupScore sc h = some v) : ∃ p ∈ sc, p.2 = v := by
  induction sc with
  | nil => simp [lookupScore] at hl
  | cons p t ih =>
      unfold lookupScore at hl
      split_ifs at hl with hp
      · exact ⟨p, by simp, by injection hl⟩
      · obtain ⟨q, hq, hv⟩ := ih hl
        exact ⟨q, by simp [hq], hv⟩

theorem lookupScore_map_add (sc : List (Nat × Nat)) (h a h' : Nat) :
    lookupScore (sc.map fun p => if p.1 = h then (p.1, (p.2 + a) % U32M) else p) h' =
      (if h' = h then (lookupScore sc h').map (fun old => (old + a) % U32M)
       else lookupScore sc h') := by
  induction sc with
  | nil => simp [lookupScore]
  | cons p t ih =>
      simp only [List.map_cons]
      by_cases hp : p.1 = h
      · by_cases hl : p.1 = h'
        · have hh : h' = h := by omega
          simp [lookupScore, hp, hl, hh]
        · have hh : ¬ h' = h := by omega
          have hh' : ¬ h = h' := by omega
          simp [lookupScore, hp, hl, hh, hh', ih]
      · by_cases hl : p.1 = h'
        · have hh : ¬ h' = h := by omega
          simp [lookupScore, hp, hl, hh]
        · simp [lookupScore, hp, hl, ih]

theorem scoresAdd_some (sc : List (Nat × Nat)) (h a : Nat)
    (hs : (lookupScore sc h).isSome) :
    ∃ sc', scoresAdd sc h a = some sc' ∧
      (∀ h', lookupScore sc' h' =
        (if h' = h then (lookupScore sc h').map (fun old => (old + a) % U32M)
         else lookupScore sc h')) ∧
      ((∀ p ∈ sc, p.2 < U32M) → ∀ p ∈ sc', p.2 < U32M) := by
  refine ⟨_, by unfold scoresAdd; rw [if_pos hs], lookupScore_map_add sc h a, ?_⟩
  intro hvals p hp
  rw [List.mem_map] at hp
  obtain ⟨q, hq, hqe⟩ := hp
  subst hqe
  split_ifs
  · exact Nat.mod_lt _ (by unfold U32M; omega)
  · exact hvals q hq

theorem awardLoop_some (l : List Nat) : ∀ (sc : List (Nat × Nat)) (a : Nat),
    (∀ p ∈ sc, p.2 < U32M) →
    (∀ h ∈ l, (lookupScore sc h).isSome) →
    ∃ sc', awardLoop sc a l = some sc' ∧
      (∀ p ∈ sc', p.2 < U32M) ∧
      ∀ h, lookupScore sc' h = (lookupScore sc h).map
        (fun old => (old + ((awards a l).filterMap
            fun p => if p.1 = h then some p.2 else none).sum) % U32M) := by
  induction l with
  | nil =>
      intro sc a hvals _
      refine ⟨sc, rfl, hvals, fun h => ?_⟩
      cases hl : lookupScore sc h with
      | none => simp [awards]
      | some v =>
          obtain ⟨p, hp, hv⟩ := lookupScore_mem sc h v hl
          have : v < U32M := hv ▸ hvals p hp
          simp [awards, Nat.mod_eq_of_lt this]
  | cons h0 t ih =>
      intro sc a hvals hl
      obtain ⟨sc1, hadd, hchar, hpres⟩ := scoresAdd_some sc h0 a (hl h0 (by simp))
      have hvals1 : ∀ p ∈ sc1, p.2 < U32M := hpres hvals
      have hl1 : ∀ x ∈ t, (lookupScore sc1 x).isSome := by
        intro x hx
        rw [hchar x]
        split_ifs with he
        · subst he
          cases hlk : lookupScore sc x with
          | none =>
              have := hl x (by simp)
              rw [hlk] at this
              simp at this
          | some v => rfl
        · exact hl x (by simp [hx])
      obtain ⟨sc', hloop, hvals', hchar'⟩ := ih sc1 (a - 1) hvals1 hl1
      refine ⟨sc', by simp [awardLoop, hadd, hloop], hvals', fun x => ?_⟩
      rw [hchar' x, hchar x]
      by_cases hx : x = h0
      · subst hx
        have hfm : ((awards a (x :: t)).filterMap
            fun p => if p.1 = x then some p.2 else none) =
            a :: ((awards (a - 1) t).filterMap
              fun p => if p.1 = x then some p.2 else none) := by
          simp [awards]
        rw [if_pos rfl, hfm, List.sum_cons]
        cases hlk : lookupScore sc x with
        | none => simp
        | some v =>
            simp only [Option.map_some', Option.some_inj]
            rw [Nat.mod_add_mod, Nat.add_assoc]
      · have hx' : ¬ h0 = x := fun he => hx he.symm
        rw [if_neg hx]
        have hfm : ((awards a (h0 :: t)).filterMap
            fun p => if p.1 = x then some p.2 else none) =
            ((awards (a - 1) t).filterMap
              fun p => if p.1 = x then some p.2 else none) := by
          simp [awards, hx']
        rw [hfm]

theorem soleSurvivor_eq_some (st : GameState) (h : Nat)
    (hs : soleSurvivor st = some h) :
    ∃ pe, st.players = [pe] ∧ pe.player.handle = h := by
  unfold soleSurvivor at hs
  rcases hp : st.players with _ | ⟨pe, _ | ⟨pe2, rest⟩⟩ <;> rw [hp] at hs <;>
    simp at hs
  exact ⟨pe, rfl, hs⟩

set_option maxHeartbeats 1000000 in
/-- C2 amended: when at most one player remains, the round-end transition
is requested and every handle's score increases (with `u32` wrap) by
`roundEndPoints`: the sole survivor (if any) gets `num_players − 1`; the
eliminated players, newest-first, get decreasing saturating awards starting
at `num_players − 2` when a survivor was credited but at `num_players − 1`
when nobody survived (the decrement only happens inside the survivor
branch of `check_round_end`). -/
theorem round_end_scoring_amended (st : GameState)
    (hn2 : 2 ≤ st.numPlayers) (hnM : st.numPlayers < U32M)
    (hvals : ∀ p ∈ st.scores, p.2 < U32M)
    (hle : st.players.length ≤ 1)
    (hsurv : ∀ pe ∈ st.players, (lookupScore st.scores pe.player.handle).isSome)
    (hstack : ∀ h ∈ st.deathStack, (lookupScore st.scores h).isSome) :
    ∃ st', checkRoundEndSys st = some st' ∧
      st'.nextState = some RollbackState.RoundEnd ∧
      st'.players = st.players ∧ st'.deathStack = st.deathStack ∧
      ∀ h, lookupScore st'.scores h = (lookupScore st.scores h).map
        (fun old => (old + roundEndPoints st.numPlayers (soleSurvivor st)
            st.deathStack h) % U32M) := by
  have haddScore : (st.numPlayers % U32M + (U32M - 1)) % U32M = st.numPlayers - 1 := by
    rw [Nat.mod_eq_of_lt hnM]
    unfold U32M at *
    omega
  unfold checkRoundEndSys
  rw [if_pos hle, haddScore]
  rcases hs : soleSurvivor st with _ | h
  · obtain ⟨sc', hloop, _, hchar⟩ :=
      awardLoop_some st.deathStack.reverse st.scores (st.numPlayers - 1) hvals
        (fun h hh => hstack h (List.mem_reverse.mp hh))
    refine ⟨{ st with scores := sc', nextState := some RollbackState.RoundEnd },
      ?_, rfl, rfl, rfl, fun h => ?_⟩
    · dsimp only
      simp only [Option.some_bind]
      rw [hloop]
      rfl
    · show lookupScore sc' h = _
      rw [hchar h]
      simp [roundEndPoints, hs]
  · obtain ⟨pe, hp, hph⟩ := soleSurvivor_eq_some st h hs
    have hsur : (lookupScore st.scores h).isSome := by
      rw [← hph]; exact hsurv pe (by rw [hp]; simp)
    obtain ⟨sc1, hadd, hchar1, hpres1⟩ :=
      scoresAdd_some st.scores h (st.numPlayers - 1) hsur
    have hdec : ((st.numPlayers - 1) + (U32M - 1)) % U32M = st.numPlayers - 2 := by
      unfold U32M at *
      omega
    have hvals1 : ∀ p ∈ sc1, p.2 < U32M := hpres1 hvals
    have hl1 : ∀ x ∈ st.deathStack.reverse, (lookupScore sc1 x).isSome := by
      intro x hx
      rw [hchar1 x]
      split_ifs with he
      · subst he
        cases hlk : lookupScore st.scores x with
        | none => rw [hlk] at hsur; simp at hsur
        | some v => rfl
      · exact hstack x (List.mem_reverse.mp hx)
    obtain ⟨sc', hloop, _, hchar'⟩ :=
      awardLoop_some st.deathStack.reverse sc1 (st.numPlayers - 2) hvals1 hl1
    refine ⟨{ st with scores := sc', nextState := some RollbackState.RoundEnd },
      ?_, rfl, rfl, rfl, fun h' => ?_⟩
    · dsimp only
      rw [hadd]
      simp only [Option.map_some', Option.some_bind]
      rw [hdec, hloop]
      rfl
    · show lookupScore sc' h' = _
      rw [hchar' h', hchar1 h']
      by_cases hh : h' = h
      · subst hh
        cases hlk : lookupScore st.scores h' with
        | none => simp
        | some v =>
            simp only [if_pos rfl, if_true, Option.map_some']
            have hpts : roundEndPoints st.numPlayers (some h') st.deathStack h' =
                (st.numPlayers - 1) +
                  ((awards (st.numPlayers - 2) st.deathStack.reverse).filterMap
                    fun p => if p.1 = h' then some p.2 else none).sum := by
              simp [roundEndPoints]
            rw [hpts, Option.some_inj]
            rw [Nat.mod_add_mod, Nat.add_assoc]
      · have hh2 : ¬ (some h = some h') := by
          simpa using fun he => hh he.symm
        simp only [if_neg hh]
        have hpts : roundEndPoints st.numPlayers (some h) st.deathStack h' =
            ((awards (st.numPlayers - 2) st.deathStack.reverse).filterMap
              fun p => if p.1 = h' then some p.2 else none).sum := by
          simp [roundEndPoints, hh2]
        rw [hpts]

/-- Concrete state refuting claim C2 as stated: two players, both
eliminated in the same step (no survivor), death stack `[0, 1]`. -/
def creState : GameState :=
  { players := [], trails := [], deathStack := [0, 1],
    scores := [(0, 0), (1, 0)],
    roundTimer := TimerQ.rep ROUND_END_SECS,
    rollbackState := RollbackState.InRound,
    nextState := none, elapsed := 0, numPlayers := 2 }

/-- C2 is false as stated: with no survivor, `add_score` is never
decremented, so `check_round_end` awards the most recently eliminated
player `num_players − 1 = 1` point, while the claim's rule (eliminated
players start at `num_players − 2`) would award 0. -/
theorem round_end_scoring_claim_false :
    (checkRoundEndSys creState).map (fun s => lookupScore s.scores 1) =
      some (some 1) ∧
    (0 + claimC2award 2 none [0, 1] 1) % U32M = 0 ∧
    (1 : Nat) ≠ 0 := by
  refine ⟨?_, by decide, by decide⟩
  decide

/-- State for the C2 witness: the claim's own 4-player example — survivor
with handle 3, death stack recorded `[0, 1, 2]` (2 eliminated last). -/
def fourPlayerEnd : GameState :=
  { players := [mkPlayer 3 ⟨0, 4, 0⟩ ⟨0, 4, 0⟩ QVec3.zero 100 false],
    trails := [], deathStack := [0, 1, 2],
    scores := [(0, 0), (1, 0), (2, 0), (3, 0)],
    roundTimer := TimerQ.rep ROUND_END_SECS,
    rollbackState := RollbackState.InRound,
    nextState := none, elapsed := 0, numPlayers := 4 }

theorem round_end_scoring_amended_witness :
    ∃ st', checkRoundEndSys fourPlayerEnd = some st' ∧
      st'.nextState = some RollbackState.RoundEnd ∧
      st'.players = fourPlayerEnd.players ∧
      st'.deathStack = fourPlayerEnd.deathStack ∧
      ∀ h, lookupScore st'.scores h = (lookupScore fourPlayerEnd.scores h).map
        (fun old => (old + roundEndPoints fourPlayerEnd.numPlayers
            (soleSurvivor fourPlayerEnd) fourPlayerEnd.deathStack h) % U32M) :=
  round_end_scoring_amended fourPlayerEnd (by decide) (by decide) (by decide)
    (by decide) (by decide) (by decide)

/-! ### Claim C6 -/

theorem freshPlayer_some (ops : MathOps) (h : Nat) (hh : h < 6) :
    ∃ pe, freshPlayer ops h = some pe ∧ pe.player.handle = h ∧
      pe.player.fuel = 100 ∧
      spawnPos h = some pe.transform.translation := by
  interval_cases h <;> exact ⟨_, rfl, rfl, rfl, rfl⟩

theorem buildPlayers_some (ops : MathOps) :
    ∀ l : List Nat, (∀ h ∈ l, h < 6) →
    ∃ ps, buildPlayers ops l = some ps ∧
      ps.map (fun pe => pe.player.handle) = l ∧
      ∀ pe ∈ ps, pe.player.fuel = 100 ∧
        spawnPos pe.player.handle = some pe.transform.translation := by
  intro l
  induction l with
  | nil => exact fun _ => ⟨[], rfl, rfl, by simp⟩
  | cons h t ih =>
      intro hl
      obtain ⟨pe, hpe, hhandle, hfuel, hpos⟩ := freshPlayer_some ops h (hl h (by simp))
      obtain ⟨ps, hps, hmap, hall⟩ := ih (fun x hx => hl x (by simp [hx]))
      refine ⟨pe :: ps, ?_, ?_, ?_⟩
      · simp [buildPlayers, hpe, hps]
      · simp [hmap, hhandle]
      · intro q hq
        rcases List.mem_cons.mp hq with rfl | hq'
        · exact ⟨hfuel, by rw [hhandle]; exact hpos⟩
        · exact hall q hq'

theorem spawnPlayers_some (ops : MathOps) (st : GameState)
    (hn : st.numPlayers ≤ 6) :
    ∃ st', spawnPlayers ops st = some st' ∧
      st'.rollbackState = st.rollbackState ∧
      st'.nextState = st.nextState ∧
      st'.scores = st.scores ∧ st'.trails = [] ∧ st'.deathStack = [] ∧
      st'.numPlayers = st.numPlayers ∧
      (st'.players.map fun pe => pe.player.handle) = List.range st.numPlayers ∧
      ∀ pe ∈ st'.players, pe.player.fuel = 100 ∧
        spawnPos pe.player.handle = some pe.transform.translation := by
  obtain ⟨ps, hps, hmap, hall⟩ := buildPlayers_some ops (List.range st.numPlayers)
    (fun h hh => lt_of_lt_of_le (List.mem_range.mp hh) hn)
  refine ⟨{ st with players := ps, trails := [], deathStack := [] },
    ?_, rfl, rfl, rfl, rfl, rfl, rfl, hmap, hall⟩
  unfold spawnPlayers
  rw [hps]
  rfl

/-- While in `RoundEnd` with a fresh pending-state slot, frames of fixed
positive step `dt` whose total is exactly the remaining intermission time
tick the repeating timer without firing until the last frame, which wraps
the timer and requests the transition to `InRound`; nothing else in the
state changes except the clock. -/
theorem roundEnd_countdown (ops : MathOps) (dt : ℚ) (hdt : 0 < dt) :
    ∀ (ins : List (Nat → Nat)) (st : GameState) (e : ℚ) (fl : Bool) (c : Nat),
      ins ≠ [] →
      st.rollbackState = RollbackState.RoundEnd →
      st.nextState = none →
      st.roundTimer = ⟨ROUND_END_SECS, e, true, fl, c⟩ →
      0 ≤ e → e + ins.length * dt = ROUND_END_SECS →
      advanceMany ops dt st ins = some
        { st with
            elapsed := st.elapsed + ins.length * dt,
            roundTimer := ⟨ROUND_END_SECS, 0, true, true, 1⟩,
            nextState := some RollbackState.InRound } := by
  intro ins
  induction ins with
  | nil => exact fun st e fl c hne => absurd rfl hne
  | cons i rest ih =>
      intro st e fl c _ hstate hnext htimer he hsum
      obtain ⟨pl, tr, ds, sc, rt, rs, ns, el, np⟩ := st
      dsimp only at hstate hnext htimer ⊢
      subst hstate
      subst hnext
      subst htimer
      rcases rest with _ | ⟨i2, rest2⟩
      · have hc : e + dt = ROUND_END_SECS := by
          simp only [List.length_cons, List.length_nil] at hsum
          push_cast at hsum
          linarith
        have hfire : (TimerQ.mk ROUND_END_SECS e true fl c).tick dt =
            ⟨ROUND_END_SECS, 0, true, true, 1⟩ := by
          unfold TimerQ.tick
          norm_num [hc, ROUND_END_SECS]
        simp only [advanceMany, advance, applyTransition, roundEndTimeoutSys,
          Option.some_bind]
        rw [hfire]
        norm_num [TimerQ.justFinished]
      · have hlt : ¬ (ROUND_END_SECS ≤ e + dt) := by
          simp only [List.length_cons] at hsum
          push_cast at hsum
          have h0 : (0:ℚ) ≤ (rest2.length : ℚ) := by positivity
          nlinarith
        have hnofire : (TimerQ.mk ROUND_END_SECS e true fl c).tick dt =
            ⟨ROUND_END_SECS, e + dt, true, false, 0⟩ := by
          unfold TimerQ.tick
          rw [if_neg (by simp), if_neg hlt]
        have harith : el + ((i :: i2 :: rest2).length : ℚ) * dt =
            (el + dt) + ((i2 :: rest2).length : ℚ) * dt := by
          simp only [List.length_cons]
          push_cast
          ring
        rw [harith]
        have hsum' : (e + dt) + ((i2 :: rest2).length : ℚ) * dt = ROUND_END_SECS := by
          simp only [List.length_cons] at hsum ⊢
          push_cast at hsum ⊢
          linarith
        have hstep : advance ops i dt
            ⟨pl, tr, ds, sc, ⟨ROUND_END_SECS, e, true, fl, c⟩,
              RollbackState.RoundEnd, none, el, np⟩ =
            some ⟨pl, tr, ds, sc, ⟨ROUND_END_SECS, e + dt, true, false, 0⟩,
              RollbackState.RoundEnd, none, el + dt, np⟩ := by
          simp only [advance, applyTransition, roundEndTimeoutSys,
            Option.some_bind]
          rw [hnofire]
          norm_num [TimerQ.justFinished]
        simp only [advanceMany]
        rw [hstep]
        simp only [Option.some_bind]
        exact ih ⟨pl, tr, ds, sc, ⟨ROUND_END_SECS, e + dt, true, false, 0⟩,
            RollbackState.RoundEnd, none, el + dt, np⟩ (e + dt) false 0
          (by simp) rfl rfl rfl (by linarith) hsum'

set_option maxHeartbeats 1000000 in
/-- C6: starting in `RoundEnd` with the full 0.75 s remaining on the
repeating intermission timer, after frames of fixed positive step totalling
exactly 0.75 s the `InRound` transition is requested (the state and all
entities are otherwise untouched), and applying that transition runs
`spawn_players`: every leftover player and trail entity is despawned, the
death stack is cleared, `num_players` fresh players are spawned at their
fixed per-handle poles with full fuel — and the score ledger is not reset. -/
theorem round_end_cycle (ops : MathOps) (dt : ℚ) (hdt : 0 < dt)
    (ins : List (Nat → Nat)) (st : GameState)
    (hne : ins ≠ [])
    (hstate : st.rollbackState = RollbackState.RoundEnd)
    (hnext : st.nextState = none)
    (htimer : st.roundTimer = TimerQ.rep ROUND_END_SECS)
    (hlen : (ins.length : ℚ) * dt = ROUND_END_SECS)
    (hnp : st.numPlayers ≤ 6) :
    ∃ st', advanceMany ops dt st ins = some st' ∧
      st'.nextState = some RollbackState.InRound ∧
      st'.rollbackState = RollbackState.RoundEnd ∧
      st'.players = st.players ∧ st'.trails = st.trails ∧
      st'.deathStack = st.deathStack ∧ st'.scores = st.scores ∧
      ∃ st'', applyTransition ops st' = some st'' ∧
        st''.rollbackState = RollbackState.InRound ∧
        st''.trails = [] ∧ st''.deathStack = [] ∧ st''.scores = st.scores ∧
        (st''.players.map fun pe => pe.player.handle) = List.range st.numPlayers ∧
        ∀ pe ∈ st''.players, pe.player.fuel = 100 ∧
          spawnPos pe.player.handle = some pe.transform.translation := by
  have hcount := roundEnd_countdown ops dt hdt ins st 0 false 0 hne hstate hnext
    (by rw [htimer]; rfl) le_rfl (by rw [zero_add]; exact hlen)
  refine ⟨_, hcount, rfl, hstate, rfl, rfl, rfl, rfl, ?_⟩
  have happ : applyTransition ops
      { st with
          elapsed := st.elapsed + ins.length * dt,
          roundTimer := ⟨ROUND_END_SECS, 0, true, true, 1⟩,
          nextState := some RollbackState.InRound } =
      spawnPlayers ops
        { st with
            elapsed := st.elapsed + ins.length * dt,
            roundTimer := ⟨ROUND_END_SECS, 0, true, true, 1⟩,
            rollbackState := RollbackState.InRound,
            nextState := none } := by
    unfold applyTransition
    dsimp only
    rw [if_neg (by rw [hstate]; exact fun hx => by cases hx)]
  rw [happ]
  obtain ⟨st'', hsp, hrs, hns, hsc, htr, hds, hnum, hmap, hall⟩ :=
    spawnPlayers_some ops
      { st with
          elapsed := st.elapsed + ins.length * dt,
          roundTimer := ⟨ROUND_END_SECS, 0, true, true, 1⟩,
          rollbackState := RollbackState.InRound,
          nextState := none } hnp
  exact ⟨st'', hsp, hrs, htr, hds, hsc, hmap, hall⟩

theorem round_end_cycle_witness :
    ∃ st', advanceMany baseOps (3/8)
        { players := [], trails := [], deathStack := [],
          scores := [(0, 5), (1, 2)],
          roundTimer := TimerQ.rep ROUND_END_SECS,
          rollbackState := RollbackState.RoundEnd,
          nextState := none, elapsed := 10, numPlayers := 2 }
        [fun _ => 0, fun _ => 0] = some st' ∧
      st'.nextState = some RollbackState.InRound ∧
      st'.rollbackState = RollbackState.RoundEnd ∧
      st'.players = [] ∧ st'.trails = [] ∧ st'.deathStack = [] ∧
      st'.scores = [(0, 5), (1, 2)] ∧
      ∃ st'', applyTransition baseOps st' = some st'' ∧
        st''.rollbackState = RollbackState.InRound ∧
        st''.trails = [] ∧ st''.deathStack = [] ∧
        st''.scores = [(0, 5), (1, 2)] ∧
        (st''.players.map fun pe => pe.player.handle) = List.range 2 ∧
        ∀ pe ∈ st''.players, pe.player.fuel = 100 ∧
          spawnPos pe.player.handle = some pe.transform.translation :=
  round_end_cycle baseOps (3/8) (by norm_num) [fun _ => 0, fun _ => 0] _
    (by simp) rfl rfl rfl (by norm_num [ROUND_END_SECS]) (by norm_num)

/-! ### Claim C10 -/

theorem movePlayer_handle (ops : MathOps) (inputs : Nat → Nat) (dt : ℚ)
    (pe : PlayerEnt) :
    (movePlayer ops inputs dt pe).player.handle = pe.player.handle := rfl

theorem lookupScore_range_zero :
    ∀ (l : List Nat) (h : Nat), h ∈ l →
      (lookupScore (l.map fun k => (k, 0)) h).isSome := by
  intro l
  induction l with
  | nil => simp
  | cons a t ih =>
      intro h hh
      simp only [List.map_cons, lookupScore]
      split_ifs with ha
      · rfl
      · rcases List.mem_cons.mp hh with rfl | hh'
        · exact absurd rfl ha
        · exact ih h hh'

theorem scoresAdd_isSome_iff (sc : List (Nat × Nat)) (h a : Nat)
    (sc' : List (Nat × Nat)) (hadd : scoresAdd sc h a = some sc') :
    ∀ x, (lookupScore sc' x).isSome = (lookupScore sc x).isSome := by
  unfold scoresAdd at hadd
  split_ifs at hadd with hs
  · injection hadd with hadd
    subst hadd
    intro x
    rw [lookupScore_map_add]
    split_ifs
    · cases lookupScore sc x <;> rfl
    · rfl

theorem awardLoop_isSome_pres :
    ∀ (l : List Nat) (sc : List (Nat × Nat)) (a : Nat) (sc' : List (Nat × Nat)),
      awardLoop sc a l = some sc' →
      ∀ x, (lookupScore sc' x).isSome = (lookupScore sc x).isSome := by
  intro l
  induction l with
  | nil =>
      intro sc a sc' hl x
      injection hl with hl
      rw [hl]
  | cons h0 t ih =>
      intro sc a sc' hl x
      unfold awardLoop at hl
      cases hadd : scoresAdd sc h0 a with
      | none => rw [hadd] at hl; simp at hl
      | some sc1 =>
          rw [hadd] at hl
          simp only [Option.some_bind] at hl
          rw [ih sc1 (a - 1) sc' hl x, scoresAdd_isSome_iff sc h0 a sc1 hadd x]

theorem awardLoop_total :
    ∀ (l : List Nat) (sc : List (Nat × Nat)) (a : Nat),
      (∀ h ∈ l, (lookupScore sc h).isSome) → (awardLoop sc a l).isSome := by
  intro l
  induction l with
  | nil => intro sc a _; rfl
  | cons h0 t ih =>
      intro sc a hl
      unfold awardLoop scoresAdd
      rw [if_pos (hl h0 (by simp))]
      simp only [Option.some_bind]
      apply ih
      intro x hx
      rw [scoresAdd_isSome_iff sc h0 a _ (by unfold scoresAdd; rw [if_pos (hl h0 (by simp))])]
      exact hl x (by simp [hx])

theorem freshPlayer_handle (ops : MathOps) (h : Nat) (pe : PlayerEnt)
    (hf : freshPlayer ops h = some pe) : pe.player.handle = h := by
  unfold freshPlayer at hf
  cases hsp : spawnPos h with
  | none => rw [hsp] at hf; simp at hf
  | some pos =>
      rw [hsp] at hf
      cases hsr : spawnRot ops h with
      | none => rw [hsr] at hf; simp at hf
      | some rot =>
          rw [hsr] at hf
          simp only [Option.some_bind, Option.map_some'] at hf
          injection hf with hf
          rw [← hf]

theorem buildPlayers_handles (ops : MathOps) :
    ∀ (l : List Nat) (ps : List PlayerEnt), buildPlayers ops l = some ps →
      ps.map (fun pe => pe.player.handle) = l := by
  intro l
  induction l with
  | nil =>
      intro ps hb
      injection hb with hb
      rw [← hb]
      rfl
  | cons h0 t ih =>
      intro ps hb
      unfold buildPlayers at hb
      cases hf : freshPlayer ops h0 with
      | none => rw [hf] at hb; simp at hb
      | some pe =>
          rw [hf] at hb
          cases hrest : buildPlayers ops t with
          | none => rw [hrest] at hb; simp at hb
          | some rest =>
              rw [hrest] at hb
              simp only [Option.some_bind, Option.map_some'] at hb
              injection hb with hb
              rw [← hb]
              simp [freshPlayer_handle ops h0 pe hf, ih rest hrest]

theorem manageTrail_foldl_handles (ops : MathOps) (now : ℚ) (n : Nat) :
    ∀ (l : List PlayerEnt) (acc : List PlayerEnt × List TrailSeg),
      ((l.foldl (manageTrailStep ops now n) acc).1.map fun pe => pe.player.handle) =
        (acc.1.map fun pe => pe.player.handle) ++
          (l.map fun pe => pe.player.handle) := by
  intro l
  induction l with
  | nil => intro acc; simp
  | cons pe t ih =>
      intro acc
      rw [List.foldl_cons, ih]
      unfold manageTrailStep
      split_ifs <;> simp

theorem scoresInv_manageTrailSys (ops : MathOps) (st : GameState)
    (hinv : ScoresInv st) : ScoresInv (manageTrailSys ops st) := by
  obtain ⟨h1, h2, h3⟩ := hinv
  refine ⟨?_, h2, h3⟩
  intro pe hpe
  have hmap := manageTrail_foldl_handles ops st.elapsed st.trails.length
    st.players ([], [])
  have : pe.player.handle ∈
      ((manageTrailSys ops st).players.map fun pe => pe.player.handle) :=
    List.mem_map.mpr ⟨pe, hpe, rfl⟩
  rw [show (manageTrailSys ops st).players =
      (st.players.foldl (manageTrailStep ops st.elapsed st.trails.length) ([], [])).1
    from rfl, hmap] at this
  simp only [List.map_nil, List.nil_append, List.mem_map] at this
  obtain ⟨q, hq, hqe⟩ := this
  rw [← hqe]
  exact h1 q hq

theorem scoresInv_movePlayerSys (ops : MathOps) (inputs : Nat → Nat) (dt : ℚ)
    (st : GameState) (hinv : ScoresInv st) :
    ScoresInv (movePlayerSys ops inputs dt st) := by
  obtain ⟨h1, h2, h3⟩ := hinv
  refine ⟨?_, h2, h3⟩
  intro pe hpe
  rw [show (movePlayerSys ops inputs dt st).players =
      st.players.map (movePlayer ops inputs dt) from rfl, List.mem_map] at hpe
  obtain ⟨q, hq, hqe⟩ := hpe
  rw [← hqe, movePlayer_handle]
  exact h1 q hq

theorem scoresInv_checkCollisionsSys (ops : MathOps) (st : GameState)
    (hinv : ScoresInv st) : ScoresInv (checkCollisionsSys ops st) := by
  obtain ⟨h1, h2, h3⟩ := hinv
  refine ⟨?_, ?_, h3⟩
  · intro pe hpe
    exact h1 pe (List.mem_filter.mp hpe).1
  · intro h hh
    unfold checkCollisionsSys at hh
    dsimp only at hh
    rw [List.mem_append] at hh
    rcases hh with hold | hnew
    · exact h2 h hold
    · rw [List.mem_flatMap] at hnew
      obtain ⟨q, hq, hq2⟩ := hnew
      rw [List.mem_map] at hq2
      obtain ⟨tr, _, hh⟩ := hq2
      rw [← hh]
      exact h1 q hq

theorem checkRoundEnd_inv (st st' : GameState)
    (h : checkRoundEndSys st = some st') :
    st'.players = st.players ∧ st'.deathStack = st.deathStack ∧
    st'.numPlayers = st.numPlayers ∧
    ∀ x, (lookupScore st'.scores x).isSome = (lookupScore st.scores x).isSome := by
  unfold checkRoundEndSys at h
  split_ifs at h with hle
  · rcases hs : soleSurvivor st with _ | hd
    all_goals rw [hs] at h
    · dsimp only at h
      simp only [Option.some_bind] at h
      cases hlp : awardLoop st.scores ((st.numPlayers % U32M + (U32M - 1)) % U32M)
        st.deathStack.reverse with
      | none =>
          rw [hlp] at h
          simp at h
      | some sc' =>
          rw [hlp] at h
          simp only [Option.map_some'] at h
          injection h with h
          rw [← h]
          exact ⟨rfl, rfl, rfl, awardLoop_isSome_pres _ _ _ _ hlp⟩
    · dsimp only at h
      cases hadd : scoresAdd st.scores hd ((st.numPlayers % U32M + (U32M - 1)) % U32M) with
      | none =>
          rw [hadd] at h
          simp at h
      | some sc1 =>
          rw [hadd] at h
          simp only [Option.map_some', Option.some_bind] at h
          cases hlp : awardLoop sc1
            (((st.numPlayers % U32M + (U32M - 1)) % U32M + (U32M - 1)) % U32M)
            st.deathStack.reverse with
          | none =>
              rw [hlp] at h
              simp at h
          | some sc' =>
              rw [hlp] at h
              simp only [Option.map_some'] at h
              injection h with h
              rw [← h]
              refine ⟨rfl, rfl, rfl, fun x => ?_⟩
              rw [awardLoop_isSome_pres _ _ _ _ hlp x,
                scoresAdd_isSome_iff _ _ _ _ hadd x]
  · injection h with h
    rw [← h]
    exact ⟨rfl, rfl, rfl, fun x => rfl⟩

theorem checkRoundEnd_total (st : GameState) (hinv : ScoresInv st) :
    (checkRoundEndSys st).isSome := by
  obtain ⟨h1, h2, h3⟩ := hinv
  unfold checkRoundEndSys
  split_ifs with hle
  · rcases hs : soleSurvivor st with _ | hd
    · dsimp only
      simp only [Option.some_bind]
      cases hlp : awardLoop st.scores ((st.numPlayers % U32M + (U32M - 1)) % U32M)
        st.deathStack.reverse with
      | none =>
          have := awardLoop_total st.deathStack.reverse st.scores
            ((st.numPlayers % U32M + (U32M - 1)) % U32M)
            (fun h hh => h3 h (h2 h (List.mem_reverse.mp hh)))
          rw [hlp] at this
          simp at this
      | some sc' => simp [hlp]
    · dsimp only
      obtain ⟨pe, hp, hph⟩ := soleSurvivor_eq_some st hd hs
      have hdn : hd < st.numPlayers := by
        rw [← hph]
        exact h1 pe (by rw [hp]; simp)
      have hsur : (lookupScore st.scores hd).isSome := h3 hd hdn
      cases hadd : scoresAdd st.scores hd ((st.numPlayers % U32M + (U32M - 1)) % U32M) with
      | none =>
          unfold scoresAdd at hadd
          rw [if_pos hsur] at hadd
          simp at hadd
      | some sc1 =>
          simp only [Option.map_some', Option.some_bind]
          cases hlp : awardLoop sc1
            (((st.numPlayers % U32M + (U32M - 1)) % U32M + (U32M - 1)) % U32M)
            st.deathStack.reverse with
          | none =>
              have := awardLoop_total st.deathStack.reverse sc1
                (((st.numPlayers % U32M + (U32M - 1)) % U32M + (U32M - 1)) % U32M)
                (fun h hh => by
                  rw [scoresAdd_isSome_iff _ _ _ _ hadd h]
                  exact h3 h (h2 h (List.mem_reverse.mp hh)))
              rw [hlp] at this
              simp at this
          | some sc' => simp [hlp]
  · rfl

theorem scoresInv_applyTransition (ops : MathOps) (st st' : GameState)
    (hinv : ScoresInv st) (h : applyTransition ops st = some st') :
    ScoresInv st' := by
  obtain ⟨h1, h2, h3⟩ := hinv
  unfold applyTransition at h
  cases hns : st.nextState with
  | none =>
      rw [hns] at h
      injection h with h
      rw [← h]
      exact ⟨h1, h2, h3⟩
  | some ns =>
      rw [hns] at h
      dsimp only at h
      split_ifs at h with hsame
      · injection h with h
        rw [← h]
        exact ⟨h1, h2, h3⟩
      · cases ns with
        | Idle =>
            injection h with h
            rw [← h]
            exact ⟨h1, h2, h3⟩
        | RoundEnd =>
            injection h with h
            rw [← h]
            exact ⟨h1, h2, h3⟩
        | InRound =>
            unfold spawnPlayers at h
            cases hb : buildPlayers ops (List.range st.numPlayers) with
            | none => rw [hb] at h; simp at h
            | some ps =>
                rw [hb] at h
                simp only [Option.map_some'] at h
                injection h with h
                rw [← h]
                refine ⟨?_, by simp, h3⟩
                intro pe hpe
                have : pe.player.handle ∈ (ps.map fun pe => pe.player.handle) :=
                  List.mem_map.mpr ⟨pe, hpe, rfl⟩
                rw [buildPlayers_handles ops _ ps hb] at this
                exact List.mem_range.mp this

/-- C10: the `Scores` map lookups of `check_round_end` always succeed —
its `unwrap`s never panic.  Formally: (1) `setup_env` establishes the
invariant that every live handle, every death-stack handle, and every
handle below `num_players` has a score entry; (2) every successful
`RollbackUpdate` frame preserves that invariant (players are only spawned
with handles in `[0, num_players)` and only live players' handles are
pushed on the death stack); and (3) under the invariant `check_round_end`
returns a result rather than failing a lookup. -/
theorem score_lookups_succeed :
    (∀ n : Nat, ScoresInv (setupEnv n)) ∧
    (∀ (ops : MathOps) (inputs : Nat → Nat) (dt : ℚ) (st st' : GameState),
        ScoresInv st → advance ops inputs dt st = some st' → ScoresInv st') ∧
    (∀ st : GameState, ScoresInv st → (checkRoundEndSys st).isSome) := by
  refine ⟨?_, ?_, checkRoundEnd_total⟩
  · intro n
    refine ⟨by simp [setupEnv], by simp [setupEnv], fun h hh => ?_⟩
    exact lookupScore_range_zero (List.range n) h (List.mem_range.mpr hh)
  · intro ops inputs dt st st' hinv hadv
    unfold advance at hadv
    dsimp only at hadv
    have hinv1 : ScoresInv { st with elapsed := st.elapsed + dt } := hinv
    cases happ : applyTransition ops { st with elapsed := st.elapsed + dt } with
    | none => rw [happ] at hadv; simp at hadv
    | some st2 =>
        rw [happ] at hadv
        simp only [Option.some_bind] at hadv
        have hinv2 : ScoresInv st2 := scoresInv_applyTransition ops _ st2 hinv1 happ
        cases hrs : st2.rollbackState with
        | Idle =>
            rw [hrs] at hadv
            injection hadv with hadv
            rw [← hadv]
            exact hinv2
        | RoundEnd =>
            rw [hrs] at hadv
            injection hadv with hadv
            rw [← hadv]
            exact hinv2
        | InRound =>
            rw [hrs] at hadv
            have hinv3 : ScoresInv (checkCollisionsSys ops
                (manageTrailSys ops (movePlayerSys ops inputs dt st2))) :=
              scoresInv_checkCollisionsSys ops _
                (scoresInv_manageTrailSys ops _
                  (scoresInv_movePlayerSys ops inputs dt st2 hinv2))
            obtain ⟨hpl, hds, hnum, hlook⟩ := checkRoundEnd_inv _ _ hadv
            obtain ⟨g1, g2, g3⟩ := hinv3
            refine ⟨?_, ?_, ?_⟩
            · intro pe hpe
              rw [hnum]
              exact g1 pe (by rw [← hpl]; exact hpe)
            · intro h hh
              rw [hnum]
              exact g2 h (by rw [← hds]; exact hh)
            · intro h hh
              rw [hlook h]
              exact g3 h (by rw [← hnum]; exact hh)

theorem score_lookups_succeed_witness :
    ScoresInv (setupEnv 3) ∧ (checkRoundEndSys fourPlayerEnd).isSome :=
  ⟨score_lookups_succeed.1 3,
   score_lookups_succeed.2.2 fourPlayerEnd (by decide)⟩

end GalaxyCats
